import Mathlib

/-!
Verification of the acceptance-criteria pipeline of the
`expo_ios_development_mcp` repository.

The TypeScript sources under `src/acceptance/` (parser/extractor, classifier,
mapper, checker/flow-runner, reporter) are shallowly embedded below.  JavaScript
strings are modelled as `List Char`; JavaScript numbers as `ℚ` (for confidence
values and rates) or `Nat` (for counters and indices); `async` functions whose
collaborators may throw are modelled in `Except` with the collaborator
behaviours passed in as explicit oracles.  The ambient wall clock
(`Date.now()`, `new Date().toISOString()`) is passed in as explicit parameters,
since no claim depends on it.
-/

namespace ExpoAccept

/-- JavaScript strings are modelled as lists of characters. -/
abbrev Str := List Char

/-- Coerce a Lean string literal to the `Str` model. -/
def S (s : String) : Str := s.data

/-- JavaScript `\s` whitespace class (ASCII fragment). -/
def isWs (c : Char) : Bool :=
  c = ' ' || c = '\t' || c = '\n' || c = '\r' || c = '\x0b' || c = '\x0c'

/-- Characters the JS regex `.` matches inside a single line (everything but
line terminators; input lines never contain `'\n'` after splitting). -/
def isDot (c : Char) : Bool := c ≠ '\n' && c ≠ '\r'

/-- Lowercase-letter-or-digit class `[a-z0-9]` used by the kebab-case steps. -/
def isKebab (c : Char) : Bool := ('a' ≤ c && c ≤ 'z') || c.isDigit

/-- JS `String.prototype.toLowerCase`, ASCII fragment (all pattern letters in
the embedded code are ASCII). -/
def toLowerStr (s : Str) : Str := s.map Char.toLower

/-- Boolean prefix test: `startsW needle hay` is true iff `needle` is an
initial segment of `hay`. -/
def startsW : Str → Str → Bool
  | [], _ => true
  | _ :: _, [] => false
  | a :: as, b :: bs => a = b && startsW as bs

/-- JS `String.prototype.includes`: contiguous-substring test. -/
def containsSub (hay needle : Str) : Bool :=
  match hay with
  | [] => startsW needle []
  | _ :: rest => startsW needle hay || containsSub rest needle

theorem startsW_iff (n h : Str) : startsW n h = true ↔ ∃ t, h = n ++ t := by
  induction n generalizing h with
  | nil => simp [startsW]
  | cons a as ih =>
    cases h with
    | nil =>
      simp [startsW]
    | cons b bs =>
      simp only [startsW, Bool.and_eq_true, decide_eq_true_eq, ih, List.cons_append,
        List.cons.injEq]
      constructor
      · rintro ⟨rfl, t, rfl⟩; exact ⟨t, rfl, rfl⟩
      · rintro ⟨t, rfl, rfl⟩; exact ⟨rfl, t, rfl⟩

theorem containsSub_iff (h n : Str) :
    containsSub h n = true ↔ ∃ p t, h = p ++ n ++ t := by
  induction h with
  | nil =>
    cases n with
    | nil => simp [containsSub, startsW]
    | cons c cs => simp [containsSub, startsW]
  | cons b bs ih =>
    simp only [containsSub, Bool.or_eq_true, startsW_iff, ih]
    constructor
    · rintro (⟨t, ht⟩ | ⟨p, t, ht⟩)
      · exact ⟨[], t, by simpa using ht⟩
      · exact ⟨b :: p, t, by simp [ht]⟩
    · rintro ⟨p, t, ht⟩
      cases p with
      | nil => exact Or.inl ⟨t, by simpa using ht⟩
      | cons x xs =>
        simp only [List.cons_append, List.cons.injEq] at ht
        exact Or.inr ⟨xs, t, by simp [ht.2]⟩

/-- Decimal digit characters. -/
def digitCh : Nat → Char
  | 0 => '0' | 1 => '1' | 2 => '2' | 3 => '3' | 4 => '4'
  | 5 => '5' | 6 => '6' | 7 => '7' | 8 => '8' | 9 => '9'
  | _ => '*'

/-- Fuel-driven most-significant-first decimal digits of `n`. -/
def decAux : Nat → Nat → Str
  | 0, _ => []
  | fuel + 1, n => if n = 0 then [] else decAux fuel (n / 10) ++ [digitCh (n % 10)]

/-- Decimal representation of a natural number, as produced by JS template
interpolation of a nonnegative integer. -/
def decRepr (n : Nat) : Str :=
  if n = 0 then ['0'] else decAux (n + 1) n

/-- Parse a digit string back to a number (proof device for injectivity). -/
def decVal (s : Str) : Nat := s.foldl (fun a c => a * 10 + (c.toNat - 48)) 0

theorem digitCh_toNat {d : Nat} (h : d < 10) : (digitCh d).toNat = 48 + d := by
  interval_cases d <;> rfl

theorem digitCh_isDigit {d : Nat} (h : d < 10) : (digitCh d).isDigit = true := by
  interval_cases d <;> rfl

theorem decVal_append (s : Str) (c : Char) :
    decVal (s ++ [c]) = decVal s * 10 + (c.toNat - 48) := by
  simp [decVal, List.foldl_append]

theorem decVal_decAux : ∀ (f n : Nat), n < 10 ^ f → decVal (decAux f n) = n := by
  intro f
  induction f with
  | zero => intro n h; interval_cases n; rfl
  | succ f ih =>
    intro n h
    by_cases hn : n = 0
    · subst hn; simp [decAux, decVal]
    · have hdiv : n / 10 < 10 ^ f := by
        rw [Nat.div_lt_iff_lt_mul (by norm_num)]
        calc n < 10 ^ (f + 1) := h
        _ = 10 ^ f * 10 := by ring
      have hm : n % 10 < 10 := Nat.mod_lt _ (by norm_num)
      simp only [decAux, hn, if_false, decVal_append, ih _ hdiv, digitCh_toNat hm]
      omega

theorem decVal_decRepr (n : Nat) : decVal (decRepr n) = n := by
  by_cases hn : n = 0
  · subst hn; rfl
  · simp only [decRepr, hn, if_false]
    have h1 : n < 10 ^ n := Nat.lt_pow_self (by norm_num) n
    have h2 : 10 ^ n ≤ 10 ^ (n + 1) := Nat.pow_le_pow_right (by norm_num) (Nat.le_succ n)
    exact decVal_decAux (n + 1) n (lt_of_lt_of_le h1 h2)

theorem decRepr_injective : Function.Injective decRepr := by
  intro a b h
  have := congrArg decVal h
  rwa [decVal_decRepr, decVal_decRepr] at this

theorem decAux_digits : ∀ (f n : Nat), ∀ c ∈ decAux f n, c.isDigit = true := by
  intro f
  induction f with
  | zero => intro n c hc; simp [decAux] at hc
  | succ f ih =>
    intro n c hc
    by_cases hn : n = 0
    · subst hn; simp [decAux] at hc
    · simp only [decAux, hn, if_false, List.mem_append, List.mem_singleton] at hc
      rcases hc with hc | rfl
      · exact ih _ c hc
      · exact digitCh_isDigit (Nat.mod_lt _ (by norm_num))

theorem decRepr_digits (n : Nat) : ∀ c ∈ decRepr n, c.isDigit = true := by
  intro c hc
  by_cases hn : n = 0
  · subst hn; simp only [decRepr, if_true] at hc; simp at hc; subst hc; rfl
  · simp only [decRepr, hn, if_false] at hc
    exact decAux_digits _ _ c hc

theorem decRepr_ne_nil (n : Nat) : decRepr n ≠ [] := by
  by_cases hn : n = 0
  · subst hn; simp [decRepr]
  · simp only [decRepr, hn, if_false, decAux]
    simp [hn]

/-- JS `replace(/[^a-z0-9]+/g, "-")`: each maximal run of characters outside
`[a-z0-9]` becomes a single hyphen.  The flag records whether the previous
character belonged to such a run. -/
def hyphenRuns : Bool → Str → Str
  | _, [] => []
  | inRun, c :: rest =>
    if isKebab c then c :: hyphenRuns false rest
    else if inRun then hyphenRuns true rest
    else '-' :: hyphenRuns true rest

/-- JS `replace` of the global pattern "one or more hyphens" by a single
hyphen. -/
def collapseH : Bool → Str → Str
  | _, [] => []
  | inRun, c :: rest =>
    if c = '-' then
      if inRun then collapseH true rest else '-' :: collapseH true rest
    else c :: collapseH false rest

/-- Remove one leading hyphen (the `^-` alternative of `replace(/^-|-$/g, "")`). -/
def dropLeadH : Str → Str
  | '-' :: rest => rest
  | s => s

/-- JS `replace(/^-|-$/g, "")`: one leading and one trailing hyphen removed. -/
def jsTrimH (s : Str) : Str := (dropLeadH (dropLeadH s).reverse).reverse

/-- The common tail of `slugify` and `inferTestId`: replace non-alphanumeric
runs by hyphens, collapse hyphen runs, strip one leading and one trailing
hyphen. -/
def kebabCore (s : Str) : Str := jsTrimH (collapseH false (hyphenRuns false s))

/-- JS `String.prototype.trim` (ASCII whitespace model). -/
def trimStr (s : Str) : Str := ((s.dropWhile isWs).reverse.dropWhile isWs).reverse

/-- Embedding of `slugify` (src/acceptance/classifier.ts): lowercase,
kebab-case, truncate to 30 characters. -/
def slugify (text : Str) : Str := (kebabCore (toLowerStr text)).take 30

/-- No two consecutive hyphens occur in the string. -/
def NoDH (s : Str) : Prop := ∀ p t : Str, s ≠ p ++ '-' :: '-' :: t

/-- The string does not start with a hyphen. -/
def HeadNH (s : Str) : Prop := s.head? ≠ some '-'

theorem NoDH.tail {c : Char} {l : Str} (h : NoDH (c :: l)) : NoDH l := by
  intro p t hl
  exact h (c :: p) t (by simp [hl])

theorem NoDH.cons {c : Char} {l : Str} (h : NoDH l) (hh : c = '-' → HeadNH l) :
    NoDH (c :: l) := by
  intro p t hl
  cases p with
  | nil =>
    simp only [List.nil_append, List.cons.injEq] at hl
    exact hh hl.1 (by rw [hl.2]; rfl)
  | cons x xs =>
    simp only [List.cons_append, List.cons.injEq] at hl
    exact h xs t hl.2

theorem NoDH_take {s : Str} (h : NoDH s) (n : Nat) : NoDH (s.take n) := by
  intro p t hs
  apply h p (t ++ s.drop n)
  conv_lhs => rw [← List.take_append_drop n s]
  rw [hs]
  simp

theorem NoDH.reverse {s : Str} (h : NoDH s) : NoDH s.reverse := by
  intro p t hs
  apply h t.reverse p.reverse
  have := congrArg List.reverse hs
  simpa using this

theorem collapseH_head (s : Str) : HeadNH (collapseH true s) := by
  induction s with
  | nil => intro h; simp [collapseH, List.head?] at h
  | cons c rest ih =>
    by_cases hc : c = '-'
    · simpa [collapseH, hc] using ih
    · simp [collapseH, hc, HeadNH, List.head?, hc]

theorem collapseH_noDH (s : Str) (b : Bool) : NoDH (collapseH b s) := by
  induction s generalizing b with
  | nil => intro p t h; simp [collapseH] at h
  | cons c rest ih =>
    by_cases hc : c = '-'
    · cases b with
      | true => simpa [collapseH, hc] using ih true
      | false =>
        simp only [collapseH, hc, if_true, if_false, Bool.false_eq_true]
        exact (ih true).cons (fun _ => collapseH_head rest)
    · simp only [collapseH, hc, if_false]
      exact (ih false).cons (fun h => absurd h hc)

theorem collapseH_mem (s : Str) (b : Bool) : ∀ c ∈ collapseH b s, c ∈ s := by
  induction s generalizing b with
  | nil => intro c hc; simp [collapseH] at hc
  | cons a rest ih =>
    intro c hc
    by_cases ha : a = '-'
    · cases b with
      | true =>
        simp only [collapseH, ha, if_true] at hc
        exact List.mem_cons_of_mem _ (ih true c (by simpa using hc))
      | false =>
        simp only [collapseH, ha, if_true, if_false, Bool.false_eq_true,
          List.mem_cons] at hc
        rcases hc with rfl | hc
        · simp [ha]
        · exact List.mem_cons_of_mem _ (ih true c hc)
    · simp only [collapseH, ha, if_false, List.mem_cons] at hc
      rcases hc with rfl | hc
      · exact List.mem_cons_self _ _
      · exact List.mem_cons_of_mem _ (ih false c hc)

theorem dropLeadH_eq (s : Str) :
    (dropLeadH s = s ∧ HeadNH s) ∨ ∃ t, s = '-' :: t ∧ dropLeadH s = t := by
  match s with
  | [] => exact Or.inl ⟨rfl, by intro h; exact Option.noConfusion h⟩
  | '-' :: t => exact Or.inr ⟨t, rfl, rfl⟩
  | c :: t =>
    by_cases hc : c = '-'
    · subst hc; exact Or.inr ⟨t, rfl, rfl⟩
    · left
      constructor
      · show dropLeadH (c :: t) = c :: t
        unfold dropLeadH
        split
        · rename_i heq; injection heq with h1 _; exact absurd h1 hc
        · rfl
      · intro hh
        exact hc (by injection hh)

theorem dropLeadH_noDH {s : Str} (h : NoDH s) : NoDH (dropLeadH s) := by
  rcases dropLeadH_eq s with ⟨he, _⟩ | ⟨t, rfl, he⟩
  · rwa [he]
  · rw [he]; exact h.tail

theorem dropLeadH_headNH {s : Str} (h : NoDH s) : HeadNH (dropLeadH s) := by
  rcases dropLeadH_eq s with ⟨he, hh⟩ | ⟨t, rfl, he⟩
  · rwa [he]
  · rw [he]
    intro hh
    cases t with
    | nil => exact Option.noConfusion hh
    | cons x t' =>
      have hx : x = '-' := by injection hh
      subst hx
      exact h [] t' rfl

theorem jsTrimH_noDH {s : Str} (h : NoDH s) : NoDH (jsTrimH s) :=
  ((dropLeadH_noDH (dropLeadH_noDH h).reverse)).reverse

theorem dropLeadH_mem (s : Str) : ∀ c ∈ dropLeadH s, c ∈ s := by
  intro c hc
  rcases dropLeadH_eq s with ⟨he, _⟩ | ⟨t, rfl, he⟩
  · rwa [he] at hc
  · rw [he] at hc; exact List.mem_cons_of_mem _ hc

theorem jsTrimH_mem (s : Str) : ∀ c ∈ jsTrimH s, c ∈ s := by
  intro c hc
  unfold jsTrimH at hc
  rw [List.mem_reverse] at hc
  have := dropLeadH_mem _ c hc
  rw [List.mem_reverse] at this
  exact dropLeadH_mem _ c this

theorem jsTrimH_headNH {s : Str} (h : NoDH s) : HeadNH (jsTrimH s) := by
  have h1 : HeadNH (dropLeadH s) := dropLeadH_headNH h
  unfold jsTrimH
  rcases dropLeadH_eq (dropLeadH s).reverse with ⟨he, _⟩ | ⟨t, hrev, he⟩
  · rw [he, List.reverse_reverse]; exact h1
  · rw [he]
    have hs1 : dropLeadH s = t.reverse ++ ['-'] := by
      have := congrArg List.reverse hrev
      simpa using this
    cases ht : t.reverse with
    | nil =>
      rw [ht] at hs1
      rw [hs1] at h1
      exact absurd rfl h1
    | cons x xs =>
      rw [hs1, ht] at h1
      intro hh
      exact h1 (by simpa using hh)

theorem kebabCore_noDH (s : Str) : NoDH (kebabCore s) :=
  jsTrimH_noDH (collapseH_noDH _ false)

theorem kebabCore_headNH (s : Str) : HeadNH (kebabCore s) :=
  jsTrimH_headNH (collapseH_noDH _ false)

theorem HeadNH_take {s : Str} (h : HeadNH s) (n : Nat) : HeadNH (s.take n) := by
  intro hh
  cases n with
  | zero => exact Option.noConfusion hh
  | succ m =>
    cases s with
    | nil => exact Option.noConfusion hh
    | cons c t => exact h hh

theorem hyphenRuns_mem (b : Bool) (s : Str) :
    ∀ c ∈ hyphenRuns b s, isKebab c = true ∨ c = '-' := by
  induction s generalizing b with
  | nil => intro c hc; simp [hyphenRuns] at hc
  | cons a rest ih =>
    intro c hc
    simp only [hyphenRuns] at hc
    by_cases hk : isKebab a
    · simp only [hk, if_true, List.mem_cons] at hc
      rcases hc with rfl | hc
      · exact Or.inl hk
      · exact ih false c hc
    · simp only [hk, if_false] at hc
      cases b with
      | true => exact ih true c (by simpa using hc)
      | false =>
        simp only [Bool.false_eq_true, if_false, List.mem_cons] at hc
        rcases hc with rfl | hc
        · exact Or.inr rfl
        · exact ih true c (by simpa using hc)

theorem kebabCore_mem (s : Str) : ∀ c ∈ kebabCore s, isKebab c = true ∨ c = '-' := by
  intro c hc
  have h1 := jsTrimH_mem _ c hc
  have h2 := collapseH_mem _ _ c h1
  exact hyphenRuns_mem _ _ c h2

/-- Cut a string at the leftmost position whose suffix satisfies the matcher:
the JS idiom `str.replace(re, "")` for a regex whose match always extends to
the end of the string (it ends in a greedy wildcard anchored at the end). -/
def cutAt (p : Str → Bool) : Str → Str
  | [] => []
  | c :: rest => if p (c :: rest) then [] else c :: cutAt p rest

/-- Keywords of `is\s+(displayed|visible|shown|rendered|available|tappable)`. -/
def kws1 : List Str :=
  [S "displayed", S "visible", S "shown", S "rendered", S "available", S "tappable"]

/-- Keywords of `should\s+(be|have|show|display)`. -/
def kws2 : List Str := [S "be", S "have", S "show", S "display"]

/-- Keywords of `(is|has|shows?|displays?)` with both optional-`s` expansions. -/
def kws4 : List Str := [S "is", S "has", S "shows", S "show", S "displays", S "display"]

/-- One-or-more-whitespace, then one of the keywords, then a rest-of-string
wildcard: matcher for the tails of the first two strip regexes.  The keyword
must start right after the maximal whitespace run (keywords start with a
letter), and the anchored wildcard requires the remainder to contain no line
terminator. -/
def wsKwWild (kws : List Str) (r : Str) : Bool :=
  let w := r.takeWhile isWs
  !w.isEmpty && kws.any (fun k =>
    startsW k (r.drop w.length) && ((r.drop w.length).drop k.length).all isDot)

/-- Matcher of `is\s+(displayed|visible|shown|rendered|available|tappable).*$`
at one position. -/
def match1At (u : Str) : Bool := startsW (S "is") u && wsKwWild kws1 (u.drop 2)

/-- Matcher of `should\s+(be|have|show|display).*$` at one position. -/
def match2At (u : Str) : Bool := startsW (S "should") u && wsKwWild kws2 (u.drop 6)

/-- Strip one leading article followed by whitespace, if present. -/
def stripArt (art : Str) (s : Str) : Option Str :=
  if startsW art s then
    let r := s.drop art.length
    let w := r.takeWhile isWs
    if w.isEmpty then none else some (r.drop w.length)
  else none

/-- JS `replace` of the anchored article pattern `(the|a|an)` plus whitespace,
alternatives tried in that order. -/
def strip3 (s : Str) : Str :=
  match stripArt (S "the") s with
  | some r => r
  | none =>
    match stripArt (S "a") s with
    | some r => r
    | none =>
      match stripArt (S "an") s with
      | some r => r
      | none => s

/-- Matcher of `\s+(is|has|shows?|displays?)\s+.+$` at one position: leading
whitespace run, a keyword, then at least one whitespace, then a nonempty
line-terminator-free remainder reaching the end of the string. -/
def match4At (u : Str) : Bool :=
  let w := u.takeWhile isWs
  !w.isEmpty && (
    let r := u.drop w.length
    kws4.any (fun k =>
      startsW k r &&
      (let t := r.drop k.length
       (List.range t.length).any (fun j =>
         (t.take (j + 1)).all isWs && !(t.drop (j + 1)).isEmpty &&
           (t.drop (j + 1)).all isDot))))

/-- The word/whitespace/hyphen character class of the element-name regex. -/
def isWordClass (c : Char) : Bool :=
  c.isAlpha || c.isDigit || c = '_' || isWs c || c = '-'

/-- Trailing UI-noun keywords of the element-name regex. -/
def uiNounKws : List Str :=
  [S "button", S "icon", S "text", S "label", S "field", S "input",
   S "card", S "container", S "section"]

/-- Does the remainder after the lazy group match the optional
whitespace-plus-UI-noun suffix (or the end of the string)? -/
def sufOk (r : Str) : Bool :=
  r.isEmpty ||
    (let w := r.takeWhile isWs
     !w.isEmpty && uiNounKws.any (fun k => toLowerStr (r.drop w.length) = k))

/-- JS `id.match` of the anchored element-name pattern: group 1 is the lazy
word-class prefix, followed optionally by whitespace and a UI noun.  When the
whole string matches, the string is replaced by group 1 (the shortest nonempty
prefix whose remainder is empty or a whitespace-plus-noun suffix); otherwise
the string is left unchanged. -/
def elemExtract (s : Str) : Str :=
  if s.isEmpty || !(s.all isWordClass) then s
  else
    match (List.range s.length).find? (fun i => sufOk (s.drop (i + 1))) with
    | some i => s.take (i + 1)
    | none => s

/-- Embedding of `inferTestId` (src/acceptance/classifier.ts): lowercase,
strip the four phrase patterns, trim, extract the element name, kebab-case,
truncate to 40 characters. -/
def inferTestId (description : Str) : Str :=
  let s1 := cutAt match1At (toLowerStr description)
  let s2 := cutAt match2At s1
  let s3 := strip3 s2
  let s4 := cutAt match4At s3
  let s5 := trimStr s4
  let s6 := elemExtract s5
  (kebabCore s6).take 40

/-! ## Data model (src/acceptance/types.ts) -/

/-- `CriterionType` union. -/
inductive CriterionType where
  | element_visible | element_text | element_color | interaction | layout
  | navigation | modal | scroll | state_change | flow_step | prerequisite
  | manual
deriving DecidableEq

/-- Selector discriminator `by ∈ {id, text, label}`. -/
inductive SelBy where
  | id | text | label
deriving DecidableEq

/-- `ElementSelector`. -/
structure ElementSelector where
  selBy : SelBy
  value : Str
  confidence : ℚ
deriving DecidableEq

/-- `textMatchMode` union. -/
inductive TextMatchMode where
  | exact | contains
deriving DecidableEq

/-- `colorTarget` union. -/
inductive ColorTarget where
  | background | text | border | icon
deriving DecidableEq

/-- `interactionType` union. -/
inductive InteractionType where
  | tap | longPress | swipe | scroll
deriving DecidableEq

/-- Swipe direction union. -/
inductive Direction where
  | up | down | left | right
deriving DecidableEq

/-- `CheckConfig`. -/
structure CheckConfig where
  selector : Option ElementSelector := none
  expectedText : Option Str := none
  textMatchMode : Option TextMatchMode := none
  colorHex : Option Str := none
  colorTarget : Option ColorTarget := none
  interactionType : Option InteractionType := none
  swipeDirection : Option Direction := none
  expectedResult : Option Str := none
  timeout : Option ℚ := none
deriving DecidableEq

/-- `AcceptanceCriterion`. -/
structure AcceptanceCriterion where
  id : Str
  sectionName : Str
  subsection : Option Str
  description : Str
  type : CriterionType
  config : CheckConfig
  lineNumber : Nat
  rawLine : Str
deriving DecidableEq

/-- `FlowStep`. -/
structure FlowStep where
  stepNumber : Nat
  description : Str
  action : Option Str
  selector : Option ElementSelector
  expectedResult : Option Str
  lineNumber : Nat
deriving DecidableEq

/-- `TestFlow`. -/
structure TestFlow where
  name : Str
  description : Option Str := none
  steps : List FlowStep
  preconditions : Option (List Str) := none
  lineNumber : Nat
deriving DecidableEq

/-- `CriteriaSubsection`. -/
structure CriteriaSubsection where
  name : Str
  criteria : List AcceptanceCriterion
  lineNumber : Nat
deriving DecidableEq

/-- `CriteriaSection`. -/
structure CriteriaSection where
  name : Str
  description : Option Str := none
  subsections : List CriteriaSubsection
  criteria : List AcceptanceCriterion
  lineNumber : Nat
deriving DecidableEq

/-- `MissingRequirement.type` union. -/
inductive MRType where
  | testID | accessibilityLabel | accessibilityHint
deriving DecidableEq

/-- `MissingRequirement`. -/
structure MissingRequirement where
  type : MRType
  elementDescription : Str
  suggestedValue : Str
  codeLocation : Option Str := none
  reason : Str
  criterionId : Str
deriving DecidableEq

/-- `CriterionStatus` union. -/
inductive CriterionStatus where
  | pass | fail | skip | blocked | error
deriving DecidableEq

/-- `CheckEvidence`. -/
structure CheckEvidence where
  screenshots : List Str
  logs : Option Str := none
  actualValue : Option Str := none
  expectedValue : Option Str := none
deriving DecidableEq

/-- `CriterionResult`. -/
structure CriterionResult where
  criterion : AcceptanceCriterion
  status : CriterionStatus
  message : Str
  evidence : Option CheckEvidence := none
  missingRequirements : Option (List MissingRequirement) := none
  elapsedMs : Nat
  timestamp : Str
deriving DecidableEq

/-- `FlowStepResult`. -/
structure FlowStepResult where
  step : FlowStep
  status : CriterionStatus
  message : Str
  evidence : Option CheckEvidence := none
  missingRequirements : Option (List MissingRequirement) := none
  elapsedMs : Nat
deriving DecidableEq

/-- `FlowResult`. -/
structure FlowResult where
  flow : TestFlow
  success : Bool
  completedSteps : Nat
  totalSteps : Nat
  stepResults : List FlowStepResult
  blockedReason : Option Str := none
  missingRequirements : Option (List MissingRequirement) := none
  evidence : Option CheckEvidence := none
  elapsedMs : Nat
  timestamp : Str
deriving DecidableEq

/-- `ReportSummary`; counters are naturals, rates are rationals. -/
structure ReportSummary where
  total : Nat
  passed : Nat
  failed : Nat
  skipped : Nat
  blocked : Nat
  errors : Nat
  passRate : ℚ
  testableRate : ℚ
deriving DecidableEq

/-- `SectionReport`. -/
structure SectionReport where
  sect : CriteriaSection
  results : List CriterionResult
  summary : ReportSummary
deriving DecidableEq

/-! ## Missing requirements (src/acceptance/checker.ts, reporter.ts) -/

/-- Embedding of `generateMissingRequirements` (src/acceptance/checker.ts).
The source also computes a local `elementDescription` from a selector-shaped
regex match on the error message, but that local is dead (the pushed records
use `criterion.description`), so the dead computation is not reproduced. -/
def generateMissingRequirements (criterion : AcceptanceCriterion)
    (_errorMessage : Str) : List MissingRequirement :=
  let suggestedTestId := inferTestId criterion.description
  let first : MissingRequirement :=
    { type := .testID
      elementDescription := criterion.description
      suggestedValue := suggestedTestId
      reason := S "Add testID=\"" ++ suggestedTestId ++
        S "\" to make this element testable"
      criterionId := criterion.id }
  match criterion.config.selector with
  | some sel =>
    if sel.selBy = .text then
      [first,
       { type := .accessibilityLabel
         elementDescription := criterion.description
         suggestedValue := sel.value
         reason := S "Alternatively, add accessibilityLabel=\"" ++ sel.value ++ S "\""
         criterionId := criterion.id }]
    else [first]
  | none => [first]

/-- The string form of `MissingRequirement.type` used in the map key. -/
def mrTypeStr : MRType → Str
  | .testID => S "testID"
  | .accessibilityLabel => S "accessibilityLabel"
  | .accessibilityHint => S "accessibilityHint"

/-- The dedup key built by the source: `` `${req.type}:${req.suggestedValue}` ``. -/
def mrKey (req : MissingRequirement) : Str :=
  mrTypeStr req.type ++ ':' :: req.suggestedValue

/-- The `Map`-based first-occurrence filter of
`deduplicateMissingRequirements`: a JS `Map` preserves key insertion order, so
`Array.from(seen.values())` is the input with every repeat-keyed entry
dropped. -/
def dedupAux : List MissingRequirement → List Str → List MissingRequirement
  | [], _ => []
  | r :: rs, seen =>
    if mrKey r ∈ seen then dedupAux rs seen
    else r :: dedupAux rs (mrKey r :: seen)

/-- Embedding of `deduplicateMissingRequirements` (src/acceptance/reporter.ts). -/
def deduplicateMissingRequirements (requirements : List MissingRequirement) :
    List MissingRequirement :=
  dedupAux requirements []

/-! ## Summary statistics (src/acceptance/checker.ts, reporter.ts) -/

/-- JS `Math.round` (round half toward positive infinity). -/
def jsRound (q : ℚ) : ℤ := ⌊q + 1 / 2⌋

/-- JS `Math.round(x * 10) / 10`: round to one decimal place. -/
def round1 (q : ℚ) : ℚ := (jsRound (q * 10) : ℚ) / 10

/-- Mutable counter record of `calculateSummary`. -/
structure Counts where
  passed : Nat := 0
  failed : Nat := 0
  skipped : Nat := 0
  blocked : Nat := 0
  errors : Nat := 0
deriving DecidableEq

/-- The `switch (result.status)` incrementing one counter. -/
def tallyStatus (c : Counts) (s : CriterionStatus) : Counts :=
  match s with
  | .pass => { c with passed := c.passed + 1 }
  | .fail => { c with failed := c.failed + 1 }
  | .skip => { c with skipped := c.skipped + 1 }
  | .blocked => { c with blocked := c.blocked + 1 }
  | .error => { c with errors := c.errors + 1 }

/-- Build a `ReportSummary` from totals, as both calculators do: JS subtraction
is modelled on `ℤ`, rates on `ℚ`. -/
def summarize (total : Nat) (c : Counts) : ReportSummary :=
  let testable : ℤ := (total : ℤ) - (c.skipped : ℤ)
  let passRate : ℚ := if 0 < testable then ((c.passed : ℚ) / (testable : ℚ)) * 100 else 0
  let testableRate : ℚ := if 0 < total then ((testable : ℚ) / (total : ℚ)) * 100 else 0
  { total := total
    passed := c.passed
    failed := c.failed
    skipped := c.skipped
    blocked := c.blocked
    errors := c.errors
    passRate := round1 passRate
    testableRate := round1 testableRate }

/-- Embedding of `calculateSummary` (src/acceptance/checker.ts). -/
def calculateSummary (results : List CriterionResult) : ReportSummary :=
  let counts := results.foldl (fun c r => tallyStatus c r.status) {}
  summarize results.length counts

/-- Accumulator of `calculateOverallSummary` (total runs ahead of the counts). -/
structure OvAcc where
  total : Nat := 0
  counts : Counts := {}
deriving DecidableEq

/-- One section summed into the overall accumulator. -/
def ovSecStep (a : OvAcc) (sr : SectionReport) : OvAcc :=
  { total := a.total + sr.summary.total
    counts :=
      { passed := a.counts.passed + sr.summary.passed
        failed := a.counts.failed + sr.summary.failed
        skipped := a.counts.skipped + sr.summary.skipped
        blocked := a.counts.blocked + sr.summary.blocked
        errors := a.counts.errors + sr.summary.errors } }

/-- One flow-step status tallied into the overall accumulator. -/
def ovStepStep (a : OvAcc) (st : FlowStepResult) : OvAcc :=
  { total := a.total + 1, counts := tallyStatus a.counts st.status }

/-- One flow's step results tallied into the overall accumulator. -/
def ovFlowStep (a : OvAcc) (f : FlowResult) : OvAcc :=
  f.stepResults.foldl ovStepStep a

/-- Embedding of `calculateOverallSummary` (src/acceptance/reporter.ts): sum
the per-section summaries, then add one tally per flow step. -/
def calculateOverallSummary (sectionReports : List SectionReport)
    (flowResults : List FlowResult) : ReportSummary :=
  let withFlows : OvAcc :=
    flowResults.foldl ovFlowStep (sectionReports.foldl ovSecStep {})
  summarize withFlows.total withFlows.counts

/-! ## Dedup key lemmas -/

theorem append_colon_inj {a b v1 v2 : Str} (ha : ':' ∉ a) (hb : ':' ∉ b)
    (h : a ++ ':' :: v1 = b ++ ':' :: v2) : a = b ∧ v1 = v2 := by
  induction a generalizing b with
  | nil =>
    cases b with
    | nil => simpa using h
    | cons y ys =>
      simp only [List.nil_append, List.cons_append, List.cons.injEq] at h
      exact absurd (by rw [h.1]; exact List.mem_cons_self _ _) hb
  | cons x xs ih =>
    cases b with
    | nil =>
      simp only [List.nil_append, List.cons_append, List.cons.injEq] at h
      exact absurd (by rw [← h.1]; exact List.mem_cons_self _ _) ha
    | cons y ys =>
      simp only [List.cons_append, List.cons.injEq] at h
      have hxs : ':' ∉ xs := fun hm => ha (List.mem_cons_of_mem _ hm)
      have hys : ':' ∉ ys := fun hm => hb (List.mem_cons_of_mem _ hm)
      obtain ⟨he, hv⟩ := ih hxs hys h.2
      exact ⟨by rw [h.1, he], hv⟩

theorem colon_not_mem_mrTypeStr (t : MRType) : ':' ∉ mrTypeStr t := by
  cases t <;> decide

theorem mrTypeStr_inj {t1 t2 : MRType} (h : mrTypeStr t1 = mrTypeStr t2) :
    t1 = t2 := by
  cases t1 <;> cases t2 <;> first
    | rfl
    | exact absurd h (by decide)

theorem mrKey_eq_iff (r1 r2 : MissingRequirement) :
    mrKey r1 = mrKey r2 ↔ r1.type = r2.type ∧ r1.suggestedValue = r2.suggestedValue := by
  constructor
  · intro h
    obtain ⟨ht, hv⟩ := append_colon_inj (colon_not_mem_mrTypeStr _)
      (colon_not_mem_mrTypeStr _) h
    exact ⟨mrTypeStr_inj ht, hv⟩
  · rintro ⟨h1, h2⟩
    simp [mrKey, h1, h2]

theorem dedupAux_sublist : ∀ (l : List MissingRequirement) (seen : List Str),
    (dedupAux l seen).Sublist l := by
  intro l
  induction l with
  | nil => intro seen; simp [dedupAux]
  | cons r rs ih =>
    intro seen
    simp only [dedupAux]
    by_cases hm : mrKey r ∈ seen
    · simp only [hm, if_true]
      exact (ih seen).trans (List.sublist_cons_self r rs)
    · simp only [hm, if_false]
      exact (ih (mrKey r :: seen)).cons₂ r

theorem dedupAux_key_not_seen :
    ∀ (l : List MissingRequirement) (seen : List Str) (r : MissingRequirement),
      r ∈ dedupAux l seen → mrKey r ∉ seen := by
  intro l
  induction l with
  | nil => intro seen r hr; simp [dedupAux] at hr
  | cons x xs ih =>
    intro seen r hr
    simp only [dedupAux] at hr
    by_cases hm : mrKey x ∈ seen
    · simp only [hm, if_true] at hr
      exact ih seen r hr
    · simp only [hm, if_false, List.mem_cons] at hr
      rcases hr with rfl | hr
      · exact hm
      · have := ih _ r hr
        exact fun hc => this (List.mem_cons_of_mem _ hc)

theorem dedupAux_keys_nodup :
    ∀ (l : List MissingRequirement) (seen : List Str),
      ((dedupAux l seen).map mrKey).Nodup := by
  intro l
  induction l with
  | nil => intro seen; simp [dedupAux]
  | cons x xs ih =>
    intro seen
    simp only [dedupAux]
    by_cases hm : mrKey x ∈ seen
    · simp only [hm, if_true]
      exact ih seen
    · simp only [hm, if_false, List.map_cons, List.nodup_cons]
      refine ⟨?_, ih (mrKey x :: seen)⟩
      intro hmem
      rw [List.mem_map] at hmem
      obtain ⟨r, hr, hkey⟩ := hmem
      exact dedupAux_key_not_seen _ _ r hr (hkey ▸ List.mem_cons_self _ _)

theorem dedupAux_find? :
    ∀ (l : List MissingRequirement) (seen : List Str) (r : MissingRequirement),
      r ∈ dedupAux l seen →
      l.find? (fun x => decide (mrKey x = mrKey r)) = some r := by
  intro l
  induction l with
  | nil => intro seen r hr; simp [dedupAux] at hr
  | cons x xs ih =>
    intro seen r hr
    simp only [dedupAux] at hr
    by_cases hm : mrKey x ∈ seen
    · simp only [hm, if_true] at hr
      have hne : mrKey x ≠ mrKey r := by
        intro hc
        exact dedupAux_key_not_seen _ _ r hr (hc ▸ hm)
      rw [List.find?_cons_of_neg _ (by simpa using hne)]
      exact ih seen r hr
    · simp only [hm, if_false, List.mem_cons] at hr
      rcases hr with rfl | hr
      · rw [List.find?_cons_of_pos _ (by simp)]
      · have hne : mrKey x ≠ mrKey r := by
          intro hc
          exact dedupAux_key_not_seen _ _ r hr (hc ▸ List.mem_cons_self _ _)
        rw [List.find?_cons_of_neg _ (by simpa using hne)]
        exact ih (mrKey x :: seen) r hr

theorem dedupAux_covers :
    ∀ (l : List MissingRequirement) (seen : List Str) (x : MissingRequirement),
      x ∈ l → mrKey x ∈ seen ∨ ∃ r ∈ dedupAux l seen, mrKey r = mrKey x := by
  intro l
  induction l with
  | nil => intro seen x hx; simp at hx
  | cons y ys ih =>
    intro seen x hx
    simp only [dedupAux]
    rcases List.mem_cons.mp hx with rfl | hx
    · by_cases hm : mrKey x ∈ seen
      · exact Or.inl hm
      · right
        refine ⟨x, ?_, rfl⟩
        simp [hm]
    · by_cases hm : mrKey y ∈ seen
      · simp only [hm, if_true]
        exact ih seen x hx
      · simp only [hm, if_false]
        rcases ih (mrKey y :: seen) x hx with hin | ⟨r, hr, hk⟩
        · rcases List.mem_cons.mp hin with he | hin
          · exact Or.inr ⟨y, List.mem_cons_self _ _, he.symm⟩
          · exact Or.inl hin
        · exact Or.inr ⟨r, List.mem_cons_of_mem _ hr, hk⟩

theorem dedupAux_idem :
    ∀ (l : List MissingRequirement) (seen : List Str),
      dedupAux (dedupAux l seen) seen = dedupAux l seen := by
  intro l
  induction l with
  | nil => intro seen; simp [dedupAux]
  | cons x xs ih =>
    intro seen
    by_cases hm : mrKey x ∈ seen
    · simp only [dedupAux, hm, if_true]
      exact ih seen
    · simp only [dedupAux, hm, if_false]
      rw [ih (mrKey x :: seen)]

/-! ## Summary lemmas -/

/-- Total of all five counters. -/
def countsSum (c : Counts) : Nat :=
  c.passed + c.failed + c.skipped + c.blocked + c.errors

theorem tallyStatus_sum (c : Counts) (s : CriterionStatus) :
    countsSum (tallyStatus c s) = countsSum c + 1 := by
  cases s <;> simp [tallyStatus, countsSum] <;> omega

theorem foldl_tally_sum (results : List CriterionResult) :
    ∀ c : Counts,
      countsSum (results.foldl (fun c r => tallyStatus c r.status) c) =
        countsSum c + results.length := by
  induction results with
  | nil => intro c; simp
  | cons r rs ih =>
    intro c
    simp only [List.foldl_cons, List.length_cons, ih, tallyStatus_sum]
    omega

theorem floor_half_eq_zero : ⌊(1 : ℚ) / 2⌋ = 0 := by
  norm_num [Int.floor_eq_iff]

theorem round1_zero : round1 0 = 0 := by
  unfold round1 jsRound
  norm_num [Int.floor_eq_iff]

theorem round1_nonneg {q : ℚ} (h : 0 ≤ q) : 0 ≤ round1 q := by
  unfold round1 jsRound
  apply div_nonneg _ (by norm_num)
  have : (0 : ℤ) ≤ ⌊q * 10 + 1 / 2⌋ := Int.le_floor.mpr (by push_cast; linarith)
  exact_mod_cast this

theorem round1_le_100 {q : ℚ} (h : q ≤ 100) : round1 q ≤ 100 := by
  unfold round1 jsRound
  rw [div_le_iff₀ (by norm_num : (0 : ℚ) < 10)]
  have h1 : ⌊q * 10 + 1 / 2⌋ < 1001 := Int.floor_lt.mpr (by push_cast; linarith)
  have h2 : ⌊q * 10 + 1 / 2⌋ ≤ 1000 := by omega
  calc (⌊q * 10 + 1 / 2⌋ : ℚ) ≤ 1000 := by exact_mod_cast h2
  _ = 100 * 10 := by norm_num

theorem rate_bounds {a b : ℚ} (ha : 0 ≤ a) (hb : a ≤ b) {cond : Prop}
    [Decidable cond] (hpos : cond → 0 < b) :
    0 ≤ round1 (if cond then a / b * 100 else 0) ∧
      round1 (if cond then a / b * 100 else 0) ≤ 100 := by
  constructor
  · apply round1_nonneg
    split
    · rename_i hc
      have hbpos := hpos hc
      positivity
    · exact le_refl 0
  · apply round1_le_100
    split
    · rename_i hc
      have hbpos := hpos hc
      have hd : a / b ≤ 1 := (div_le_one hbpos).mpr hb
      nlinarith
    · norm_num

theorem summarize_props (total : Nat) (c : Counts) (h : countsSum c = total) :
    (summarize total c).passed + (summarize total c).failed +
      (summarize total c).skipped + (summarize total c).blocked +
      (summarize total c).errors = (summarize total c).total ∧
    0 ≤ (summarize total c).passRate ∧ (summarize total c).passRate ≤ 100 ∧
    0 ≤ (summarize total c).testableRate ∧ (summarize total c).testableRate ≤ 100 ∧
    (∃ k : ℤ, (summarize total c).passRate = (k : ℚ) / 10) ∧
    (∃ k : ℤ, (summarize total c).testableRate = (k : ℚ) / 10) ∧
    (summarize total c).passRate =
      round1 (if 0 < (total : ℤ) - (c.skipped : ℤ) then
        ((c.passed : ℚ) / (((total : ℤ) - (c.skipped : ℤ) : ℤ) : ℚ)) * 100 else 0) ∧
    (total = c.skipped → (summarize total c).passRate = 0) := by
  have hsk : c.skipped ≤ total := by unfold countsSum at h; omega
  have hps : c.passed + c.skipped ≤ total := by unfold countsSum at h; omega
  have hpr : (summarize total c).passRate =
      round1 (if 0 < (total : ℤ) - (c.skipped : ℤ) then
        ((c.passed : ℚ) / (((total : ℤ) - (c.skipped : ℤ) : ℤ) : ℚ)) * 100 else 0) := rfl
  have htr : (summarize total c).testableRate =
      round1 (if 0 < total then
        ((((total : ℤ) - (c.skipped : ℤ) : ℤ) : ℚ) / (total : ℚ)) * 100 else 0) := rfl
  have hb1 := @rate_bounds (c.passed : ℚ)
    ((((total : ℤ) - (c.skipped : ℤ) : ℤ) : ℚ))
    (by positivity)
    (by
      have hz : (c.passed : ℤ) ≤ (total : ℤ) - (c.skipped : ℤ) := by omega
      exact_mod_cast hz)
    (0 < (total : ℤ) - (c.skipped : ℤ)) _
    (fun hc => by exact_mod_cast hc)
  have hb2 := @rate_bounds ((((total : ℤ) - (c.skipped : ℤ) : ℤ) : ℚ))
    ((total : ℚ))
    (by
      have hz : (0 : ℤ) ≤ (total : ℤ) - (c.skipped : ℤ) := by omega
      exact_mod_cast hz)
    (by
      have hz : (total : ℤ) - (c.skipped : ℤ) ≤ (total : ℤ) := by omega
      exact_mod_cast hz)
    (0 < total) _
    (fun hc => by exact_mod_cast hc)
  refine ⟨?_, ?_, ?_, ?_, ?_, ⟨jsRound _, rfl⟩, ⟨jsRound _, rfl⟩, hpr, ?_⟩
  · show c.passed + c.failed + c.skipped + c.blocked + c.errors = total
    unfold countsSum at h
    omega
  · rw [hpr]; exact hb1.1
  · rw [hpr]; exact hb1.2
  · rw [htr]; exact hb2.1
  · rw [htr]; exact hb2.2
  · intro heq
    rw [hpr, heq]
    have hcond : ¬(0 < (c.skipped : ℤ) - (c.skipped : ℤ)) := by omega
    rw [if_neg hcond, round1_zero]

/-- All invariants claimed for one `ReportSummary`: the five counters sum to
the total, both rates are in `[0, 100]` and are exact multiples of one tenth,
the pass rate is the rounded `passed / testable × 100` (0 when `testable` is
not positive), and a zero testable count forces a zero pass rate. -/
def summaryWellFormed (s : ReportSummary) : Prop :=
  s.passed + s.failed + s.skipped + s.blocked + s.errors = s.total ∧
  0 ≤ s.passRate ∧ s.passRate ≤ 100 ∧
  0 ≤ s.testableRate ∧ s.testableRate ≤ 100 ∧
  (∃ k : ℤ, s.passRate = (k : ℚ) / 10) ∧
  (∃ k : ℤ, s.testableRate = (k : ℚ) / 10) ∧
  s.passRate = round1 (if 0 < (s.total : ℤ) - (s.skipped : ℤ) then
    ((s.passed : ℚ) / (((s.total : ℤ) - (s.skipped : ℤ) : ℤ) : ℚ)) * 100 else 0) ∧
  (s.total = s.skipped → s.passRate = 0)

theorem summarize_wellFormed (total : Nat) (c : Counts) (h : countsSum c = total) :
    summaryWellFormed (summarize total c) :=
  summarize_props total c h

/-- The accumulator invariant of `calculateOverallSummary`. -/
def ovInv (a : OvAcc) : Prop := countsSum a.counts = a.total

theorem ovSecStep_inv {a : OvAcc} {sr : SectionReport}
    (hw : sr.summary.passed + sr.summary.failed + sr.summary.skipped +
      sr.summary.blocked + sr.summary.errors = sr.summary.total)
    (ha : ovInv a) : ovInv (ovSecStep a sr) := by
  unfold ovInv countsSum at *
  simp only [ovSecStep]
  omega

theorem ovStepStep_inv {a : OvAcc} {st : FlowStepResult} (ha : ovInv a) :
    ovInv (ovStepStep a st) := by
  unfold ovInv at *
  simp only [ovStepStep, tallyStatus_sum, ha]

theorem ovFlowStep_inv (steps : List FlowStepResult) :
    ∀ a : OvAcc, ovInv a → ovInv (steps.foldl ovStepStep a) := by
  induction steps with
  | nil => intro a ha; exact ha
  | cons st rest ih =>
    intro a ha
    exact ih _ (ovStepStep_inv ha)

theorem secFold_inv (srs : List SectionReport)
    (hw : ∀ sr ∈ srs, sr.summary.passed + sr.summary.failed +
      sr.summary.skipped + sr.summary.blocked + sr.summary.errors =
      sr.summary.total) :
    ∀ a : OvAcc, ovInv a → ovInv (srs.foldl ovSecStep a) := by
  induction srs with
  | nil => intro a ha; exact ha
  | cons sr rest ih =>
    intro a ha
    exact ih (fun x hx => hw x (List.mem_cons_of_mem _ hx)) _
      (ovSecStep_inv (hw sr (List.mem_cons_self _ _)) ha)

theorem flowFold_inv (flows : List FlowResult) :
    ∀ a : OvAcc, ovInv a → ovInv (flows.foldl ovFlowStep a) := by
  induction flows with
  | nil => intro a ha; exact ha
  | cons f rest ih =>
    intro a ha
    exact ih _ (ovFlowStep_inv f.stepResults a ha)

/-- C6: for every list of criterion results, and for the overall summary
computed from per-section summaries plus flow-step statuses, the produced
`ReportSummary` has its five status counts summing to `total`, `passRate` and
`testableRate` in `[0, 100]` rounded to one decimal place, with
`passRate = round(passed / testable × 100)` and `passRate = 0` whenever
`testable = total − skipped` is zero. -/
theorem summary_rates_bounded_and_consistent
    (results : List CriterionResult) (sectionReports : List SectionReport)
    (flowResults : List FlowResult)
    (hsec : ∀ sr ∈ sectionReports, sr.summary.passed + sr.summary.failed +
      sr.summary.skipped + sr.summary.blocked + sr.summary.errors =
      sr.summary.total) :
    summaryWellFormed (calculateSummary results) ∧
    summaryWellFormed (calculateOverallSummary sectionReports flowResults) := by
  constructor
  · apply summarize_wellFormed
    have := foldl_tally_sum results {}
    simpa [countsSum] using this
  · apply summarize_wellFormed
    have h0 : ovInv ({} : OvAcc) := by unfold ovInv countsSum; rfl
    exact flowFold_inv flowResults _ (secFold_inv sectionReports hsec _ h0)

/-- Concrete selector used by the witness data. -/
def sampleSelector : ElementSelector :=
  { selBy := .text, value := S "Login", confidence := 6 / 10 }

/-- Concrete criterion used by the witness data. -/
def sampleCriterion : AcceptanceCriterion :=
  { id := S "visual-1"
    sectionName := S "Visual"
    subsection := none
    description := S "Login button is visible"
    type := .element_visible
    config := { selector := some sampleSelector }
    lineNumber := 3
    rawLine := S "- [ ] Login button is visible" }

/-- Concrete passing result used by the witness data. -/
def sampleResultPass : CriterionResult :=
  { criterion := sampleCriterion
    status := .pass
    message := S "Check passed"
    elapsedMs := 5
    timestamp := S "2025-01-01T00:00:00.000Z" }

/-- Concrete skipped result used by the witness data. -/
def sampleResultSkip : CriterionResult :=
  { sampleResultPass with status := .skip, message := S "Manual check skipped" }

/-- Witness for C6: the invariants evaluated on a concrete two-result run and
a concrete (empty) overall report. -/
theorem summary_rates_bounded_and_consistent_witness :
    summaryWellFormed (calculateSummary [sampleResultPass, sampleResultSkip]) ∧
    summaryWellFormed (calculateOverallSummary [] []) :=
  summary_rates_bounded_and_consistent [sampleResultPass, sampleResultSkip] [] []
    (by intro sr hsr; simp at hsr)

/-- C7: `deduplicateMissingRequirements` keeps exactly the first occurrence of
each (kind, suggestedValue) key — every kept entry is the first input entry
with its key, every input key is represented exactly once, later same-key
entries are dropped (the output is a sublist of the input) — and it is
idempotent. -/
theorem dedup_keeps_first_occurrence_and_idempotent
    (reqs : List MissingRequirement) :
    (deduplicateMissingRequirements reqs).Sublist reqs ∧
    (∀ r ∈ deduplicateMissingRequirements reqs,
      reqs.find? (fun x =>
        decide (x.type = r.type ∧ x.suggestedValue = r.suggestedValue)) = some r) ∧
    (∀ x ∈ reqs, ∃ r ∈ deduplicateMissingRequirements reqs,
      r.type = x.type ∧ r.suggestedValue = x.suggestedValue) ∧
    (∀ r1 ∈ deduplicateMissingRequirements reqs,
      ∀ r2 ∈ deduplicateMissingRequirements reqs,
      r1.type = r2.type → r1.suggestedValue = r2.suggestedValue → r1 = r2) ∧
    deduplicateMissingRequirements (deduplicateMissingRequirements reqs) =
      deduplicateMissingRequirements reqs := by
  refine ⟨dedupAux_sublist reqs [], ?_, ?_, ?_, dedupAux_idem reqs []⟩
  · intro r hr
    have hfind := dedupAux_find? reqs [] r hr
    have hext : (fun x => decide (mrKey x = mrKey r)) =
        (fun x => decide (x.type = r.type ∧ x.suggestedValue = r.suggestedValue)) := by
      funext x
      exact decide_eq_decide.mpr (mrKey_eq_iff x r)
    rw [← hext]
    exact hfind
  · intro x hx
    rcases dedupAux_covers reqs [] x hx with hin | ⟨r, hr, hk⟩
    · simp at hin
    · exact ⟨r, hr, (mrKey_eq_iff r x).mp hk⟩
  · intro r1 h1 r2 h2 ht hv
    have := dedupAux_keys_nodup reqs []
    exact List.inj_on_of_nodup_map this h1 h2 ((mrKey_eq_iff r1 r2).mpr ⟨ht, hv⟩)

/-- Concrete missing requirements used by the C7 witness (first and third
entries share a (kind, suggestedValue) key). -/
def sampleMr1 : MissingRequirement :=
  { type := .testID, elementDescription := S "Login button"
    suggestedValue := S "login", reason := S "Add testID"
    criterionId := S "visual-1" }

/-- Concrete second missing requirement for the C7 witness. -/
def sampleMr2 : MissingRequirement :=
  { type := .accessibilityLabel, elementDescription := S "Login button"
    suggestedValue := S "Login", reason := S "Add accessibilityLabel"
    criterionId := S "visual-1" }

/-- Concrete duplicate-keyed missing requirement for the C7 witness. -/
def sampleMr3 : MissingRequirement :=
  { sampleMr1 with criterionId := S "flow-step-1" }

/-- Witness for C7 at a concrete three-element list with a duplicated key. -/
theorem dedup_keeps_first_occurrence_and_idempotent_witness :
    (deduplicateMissingRequirements [sampleMr1, sampleMr2, sampleMr3]).Sublist
        [sampleMr1, sampleMr2, sampleMr3] ∧
    (∀ r ∈ deduplicateMissingRequirements [sampleMr1, sampleMr2, sampleMr3],
      [sampleMr1, sampleMr2, sampleMr3].find? (fun x =>
        decide (x.type = r.type ∧ x.suggestedValue = r.suggestedValue)) = some r) ∧
    (∀ x ∈ [sampleMr1, sampleMr2, sampleMr3],
      ∃ r ∈ deduplicateMissingRequirements [sampleMr1, sampleMr2, sampleMr3],
      r.type = x.type ∧ r.suggestedValue = x.suggestedValue) ∧
    (∀ r1 ∈ deduplicateMissingRequirements [sampleMr1, sampleMr2, sampleMr3],
      ∀ r2 ∈ deduplicateMissingRequirements [sampleMr1, sampleMr2, sampleMr3],
      r1.type = r2.type → r1.suggestedValue = r2.suggestedValue → r1 = r2) ∧
    deduplicateMissingRequirements
        (deduplicateMissingRequirements [sampleMr1, sampleMr2, sampleMr3]) =
      deduplicateMissingRequirements [sampleMr1, sampleMr2, sampleMr3] :=
  dedup_keeps_first_occurrence_and_idempotent [sampleMr1, sampleMr2, sampleMr3]

/-- C2: `generateMissingRequirements` always returns a list whose first entry
is a testID suggestion valued `inferTestId` of the criterion description, and
the list has length 2 exactly when the criterion's inferred selector exists
with `by = "text"`, in which case the second entry is an accessibility-label
suggestion carrying that selector's value. -/
theorem generateMissingRequirements_shape (criterion : AcceptanceCriterion)
    (errorMessage : Str) :
    (∃ r rest, generateMissingRequirements criterion errorMessage = r :: rest ∧
      r.type = .testID ∧ r.suggestedValue = inferTestId criterion.description) ∧
    1 ≤ (generateMissingRequirements criterion errorMessage).length ∧
    (generateMissingRequirements criterion errorMessage).length ≤ 2 ∧
    ((generateMissingRequirements criterion errorMessage).length = 2 ↔
      ∃ sel, criterion.config.selector = some sel ∧ sel.selBy = .text) ∧
    (∀ sel, criterion.config.selector = some sel → sel.selBy = .text →
      ∃ r2, (generateMissingRequirements criterion errorMessage).get? 1 = some r2 ∧
        r2.type = .accessibilityLabel ∧ r2.suggestedValue = sel.value) := by
  rcases hsel : criterion.config.selector with _ | sel
  · simp only [generateMissingRequirements, hsel]
    refine ⟨⟨_, _, rfl, rfl, rfl⟩, by simp, by simp, ?_, ?_⟩
    · simp only [List.length_singleton]
      constructor
      · intro h; exact absurd h (by norm_num)
      · rintro ⟨sel, hs, _⟩
        exact Option.noConfusion hs
    · intro sel hs
      exact Option.noConfusion hs
  · by_cases hby : sel.selBy = .text
    · simp only [generateMissingRequirements, hsel, hby, if_true]
      refine ⟨⟨_, _, rfl, rfl, rfl⟩, by simp, by simp, ?_, ?_⟩
      · constructor
        · intro _; exact ⟨sel, rfl, hby⟩
        · intro _; rfl
      · intro sel' hs' _
        obtain rfl : sel = sel' := by injection hs'
        exact ⟨_, rfl, rfl, rfl⟩
    · simp only [generateMissingRequirements, hsel, hby, if_false]
      refine ⟨⟨_, _, rfl, rfl, rfl⟩, by simp, by simp, ?_, ?_⟩
      · simp only [List.length_singleton]
        constructor
        · intro h; exact absurd h (by norm_num)
        · rintro ⟨sel', hs', hby'⟩
          obtain rfl : sel = sel' := by injection hs'
          exact absurd hby' hby
      · intro sel' hs' hby'
        obtain rfl : sel = sel' := by injection hs'
        exact absurd hby' hby

/-- Witness for C2 at a concrete criterion whose inferred selector is by
text. -/
theorem generateMissingRequirements_shape_witness :
    (∃ r rest, generateMissingRequirements sampleCriterion (S "Cannot find element") =
        r :: rest ∧
      r.type = .testID ∧ r.suggestedValue = inferTestId sampleCriterion.description) ∧
    1 ≤ (generateMissingRequirements sampleCriterion (S "Cannot find element")).length ∧
    (generateMissingRequirements sampleCriterion (S "Cannot find element")).length ≤ 2 ∧
    ((generateMissingRequirements sampleCriterion (S "Cannot find element")).length = 2 ↔
      ∃ sel, sampleCriterion.config.selector = some sel ∧ sel.selBy = .text) ∧
    (∀ sel, sampleCriterion.config.selector = some sel → sel.selBy = .text →
      ∃ r2, (generateMissingRequirements sampleCriterion
        (S "Cannot find element")).get? 1 = some r2 ∧
        r2.type = .accessibilityLabel ∧ r2.suggestedValue = sel.value) :=
  generateMissingRequirements_shape sampleCriterion (S "Cannot find element")

/-- C10 (amended): `inferTestId` always returns at most 40 characters drawn
from lowercase letters, digits and hyphens, with no leading hyphen and no two
consecutive hyphens, and the result can be empty; however, because truncation
to 40 characters happens after hyphen trimming, the result can end in a
hyphen. -/
theorem inferTestId_shape (description : Str) :
    (inferTestId description).length ≤ 40 ∧
    (∀ c ∈ inferTestId description, isKebab c = true ∨ c = '-') ∧
    HeadNH (inferTestId description) ∧
    NoDH (inferTestId description) ∧
    inferTestId (S "Is displayed") = [] := by
  have hdef : inferTestId description =
      (kebabCore (elemExtract (trimStr (cutAt match4At (strip3
        (cutAt match2At (cutAt match1At (toLowerStr description)))))))).take 40 := rfl
  refine ⟨?_, ?_, ?_, ?_, by rfl⟩
  · rw [hdef]; exact List.length_take_le 40 _
  · intro c hc
    rw [hdef] at hc
    exact kebabCore_mem _ c (List.mem_of_mem_take hc)
  · rw [hdef]; exact HeadNH_take (kebabCore_headNH _) 40
  · rw [hdef]; exact NoDH_take (kebabCore_noDH _) 40

/-- Counterexample for C10 as frozen: the claim asserts no trailing hyphen,
but a 41-character kebab-cased name truncated at 40 ends in a hyphen, because
`slice(0, 40)` runs after the hyphen-trimming replace. -/
theorem inferTestId_trailing_hyphen_counterexample :
    (inferTestId (List.replicate 39 'a' ++ [' ', 'b'])).getLast? = some '-' ∧
    (inferTestId (List.replicate 39 'a' ++ [' ', 'b'])).length = 40 := by
  constructor <;> decide

/-! ## Mapper (monolithic variant of src/acceptance/mapper.ts) -/

/-- MCP `Selector` (by/value pair). -/
structure Selector where
  selBy : SelBy
  value : Str
deriving DecidableEq

/-- `toDetoxSelector`. -/
def toDetoxSelector (selector : ElementSelector) : Selector :=
  { selBy := selector.selBy, value := selector.value }

/-- Hexadecimal digit characters. -/
def hexCh (n : Nat) : Char :=
  if n < 10 then digitCh n
  else if n = 10 then 'a' else if n = 11 then 'b' else if n = 12 then 'c'
  else if n = 13 then 'd' else if n = 14 then 'e' else 'f'

/-- `JSON.stringify` escaping of one character. -/
def jsonEscCh (c : Char) : Str :=
  if c = '"' then ['\\', '"']
  else if c = '\\' then ['\\', '\\']
  else if c = '\n' then ['\\', 'n']
  else if c = '\r' then ['\\', 'r']
  else if c = '\t' then ['\\', 't']
  else if c = '\x08' then ['\\', 'b']
  else if c = '\x0c' then ['\\', 'f']
  else if c.toNat < 32 then
    S "\\u00" ++ [hexCh (c.toNat / 16), hexCh (c.toNat % 16)]
  else [c]

/-- `JSON.stringify` of a string value. -/
def jsonQuote (s : Str) : Str := '"' :: (s.map jsonEscCh).flatten ++ ['"']

/-- `selectorToExpression`. -/
def selectorToExpression (selector : Selector) : Str :=
  let value := jsonQuote selector.value
  match selector.selBy with
  | .id => S "by.id(" ++ value ++ S ")"
  | .text => S "by.text(" ++ value ++ S ")"
  | .label => S "by.label(" ++ value ++ S ")"

/-- `CheckType` union. -/
inductive CheckType where
  | detox | visual | screenshot_analysis | flow | manual
deriving DecidableEq

/-- `colorExtraction` record of `VisualCheckConfig`. -/
structure ColorExtraction where
  targetColor : Str
  tolerance : ℚ
deriving DecidableEq

/-- `captureRegion` record of `VisualCheckConfig`. -/
structure CaptureRegion where
  x : ℚ
  y : ℚ
  width : ℚ
  height : ℚ
deriving DecidableEq

/-- `VisualCheckConfig`. -/
structure VisualCheckConfig where
  captureRegion : Option CaptureRegion := none
  colorExtraction : Option ColorExtraction := none
  baselineName : Option Str := none
deriving DecidableEq

/-- `MappedFlowStep`. -/
structure MappedFlowStep where
  step : FlowStep
  detoxSnippet : Option Str := none
  action : Str
  selector : Option Selector := none
  expectedResult : Option Str := none
deriving DecidableEq

/-- `MappedCheck`. -/
structure MappedCheck where
  type : CheckType
  criterion : AcceptanceCriterion
  detoxSnippet : Option Str := none
  visualConfig : Option VisualCheckConfig := none
  flowSteps : Option (List MappedFlowStep) := none
  manualReason : Option Str := none
  confidence : ℚ
deriving DecidableEq

/-- JS truthiness of an optional string (`undefined` and `""` are falsy). -/
def optStrTruthy : Option Str → Bool
  | some s => !s.isEmpty
  | none => false

/-- `mapElementVisibilityCheck`. -/
def mapElementVisibilityCheck (criterion : AcceptanceCriterion) : MappedCheck :=
  match criterion.config.selector with
  | none =>
    { type := .manual, criterion
      manualReason := some (S "Cannot infer element selector from description")
      confidence := 0 }
  | some sel =>
    let selectorExpr := selectorToExpression (toDetoxSelector sel)
    { type := .detox, criterion
      detoxSnippet := some (S "await waitFor(element(" ++ selectorExpr ++
        S ")).toBeVisible().withTimeout(10000);")
      confidence := sel.confidence }

/-- `mapTextAssertionCheck`. -/
def mapTextAssertionCheck (criterion : AcceptanceCriterion) : MappedCheck :=
  let config := criterion.config
  if config.selector = none ∧ optStrTruthy config.expectedText = false then
    { type := .manual, criterion
      manualReason := some (S "Cannot infer element selector or expected text")
      confidence := 0 }
  else
    let selector : Selector :=
      match config.selector with
      | some s => toDetoxSelector s
      | none => { selBy := .text, value := config.expectedText.getD [] }
    let selectorExpr := selectorToExpression selector
    let escapedText := jsonQuote (match config.expectedText with
      | some t => if t.isEmpty then selector.value else t
      | none => selector.value)
    let snippet :=
      if config.textMatchMode = some .contains then
        S "await expect(element(" ++ selectorExpr ++ S ")).toHaveText(new RegExp(" ++
          escapedText ++ S "));"
      else
        S "await expect(element(" ++ selectorExpr ++ S ")).toHaveText(" ++
          escapedText ++ S ");"
    { type := .detox, criterion
      detoxSnippet := some snippet
      confidence := match config.selector with | some s => s.confidence | none => 1 / 2 }

/-- `mapColorCheck`. -/
def mapColorCheck (criterion : AcceptanceCriterion) : MappedCheck :=
  if optStrTruthy criterion.config.colorHex = false then
    { type := .manual, criterion
      manualReason := some (S "No color specification found")
      confidence := 0 }
  else
    { type := .screenshot_analysis, criterion
      visualConfig := some
        { colorExtraction := some
            { targetColor := criterion.config.colorHex.getD []
              tolerance := 10 } }
      confidence := 6 / 10 }

/-- Direction keyword as a string. -/
def dirStr : Direction → Str
  | .up => S "up"
  | .down => S "down"
  | .left => S "left"
  | .right => S "right"

/-- `mapInteractionCheck`. -/
def mapInteractionCheck (criterion : AcceptanceCriterion) : MappedCheck :=
  let config := criterion.config
  match config.selector with
  | none =>
    { type := .manual, criterion
      manualReason := some (S "Cannot infer element selector for interaction")
      confidence := 0 }
  | some sel =>
    let selectorExpr := selectorToExpression (toDetoxSelector sel)
    let snippet :=
      match config.interactionType with
      | some .tap =>
        S "const el = element(" ++ selectorExpr ++ S ");\n" ++
        S "      await expect(el).toBeVisible();\n" ++
        S "      await el.tap();"
      | some .longPress => S "await element(" ++ selectorExpr ++ S ").longPress(1000);"
      | some .swipe =>
        let direction := config.swipeDirection.getD .up
        S "await element(" ++ selectorExpr ++ S ").swipe(\x27" ++ dirStr direction ++
          S "\x27);"
      | some .scroll => S "await element(" ++ selectorExpr ++ S ").scroll(200, \x27down\x27);"
      | none => S "await element(" ++ selectorExpr ++ S ").tap();"
    { type := .detox, criterion
      detoxSnippet := some snippet
      confidence := sel.confidence * (9 / 10) }

/-- Matcher at one position for `slides?` followed by optional whitespace and
`up` or `in` (the last alternative of the modal "open" regex). -/
def slideUpInAt (u : Str) : Bool :=
  startsW (S "slide") u &&
    (let t := u.drop 5
     let tail1 := t.dropWhile isWs
     let tail2 := (t.drop 1).dropWhile isWs
     (startsW (S "up") tail1 || startsW (S "in") tail1) ||
       (startsW (S "s") t && (startsW (S "up") tail2 || startsW (S "in") tail2)))

/-- Does any suffix of the string satisfy the matcher (regex `.test`)? -/
def anyPos (p : Str → Bool) : Str → Bool
  | [] => p []
  | c :: rest => p (c :: rest) || anyPos p rest

/-- `mapModalCheck`. -/
def mapModalCheck (criterion : AcceptanceCriterion) : MappedCheck :=
  let config := criterion.config
  let lower := toLowerStr criterion.description
  let isOpen := containsSub lower (S "open") || containsSub lower (S "appear") ||
    containsSub lower (S "show") || anyPos slideUpInAt lower
  let isClose := containsSub lower (S "close") || containsSub lower (S "disappear") ||
    containsSub lower (S "hide") || containsSub lower (S "dismiss")
  if config.selector = none ∧ isOpen = false ∧ isClose = false then
    { type := .manual, criterion
      manualReason := some (S "Cannot determine modal behavior to test")
      confidence := 0 }
  else
    match config.selector with
    | some sel =>
      let selectorExpr := selectorToExpression (toDetoxSelector sel)
      let snippet :=
        if isClose then
          S "await waitFor(element(" ++ selectorExpr ++
            S ")).not.toBeVisible().withTimeout(5000);"
        else
          S "await waitFor(element(" ++ selectorExpr ++
            S ")).toBeVisible().withTimeout(5000);"
      { type := .detox, criterion
        detoxSnippet := some snippet
        confidence := sel.confidence * (8 / 10) }
    | none =>
      { type := .manual, criterion
        manualReason := some (S "Modal behavior requires specific element selector")
        confidence := 0 }

/-- `mapNavigationCheck`. -/
def mapNavigationCheck (criterion : AcceptanceCriterion) : MappedCheck :=
  match criterion.config.selector with
  | some sel =>
    let selectorExpr := selectorToExpression (toDetoxSelector sel)
    { type := .detox, criterion
      detoxSnippet := some (S "await waitFor(element(" ++ selectorExpr ++
        S ")).toBeVisible().withTimeout(10000);")
      confidence := sel.confidence * (7 / 10) }
  | none =>
    { type := .manual, criterion
      manualReason := some (S "Navigation check requires screen identifier")
      confidence := 0 }

/-- The `smooth|responsive|works` test that routes a scroll criterion to the
manual fallback. -/
def scrollSmoothGuard (criterion : AcceptanceCriterion) : Bool :=
  let lower := toLowerStr criterion.description
  containsSub lower (S "smooth") || containsSub lower (S "responsive") ||
    containsSub lower (S "works")

/-- `mapScrollCheck`. -/
def mapScrollCheck (criterion : AcceptanceCriterion) : MappedCheck :=
  let lower := toLowerStr criterion.description
  if scrollSmoothGuard criterion then
    { type := .manual, criterion
      manualReason := some (S "Scroll smoothness requires manual visual verification")
      confidence := 0 }
  else
    match criterion.config.selector with
    | some sel =>
      let selectorExpr := selectorToExpression (toDetoxSelector sel)
      let direction := if containsSub lower (S "horizontal") then S "right" else S "down"
      { type := .detox, criterion
        detoxSnippet := some (S "await element(" ++ selectorExpr ++
          S ").scroll(100, \x27" ++ direction ++ S "\x27);")
        confidence := sel.confidence * (6 / 10) }
    | none =>
      { type := .manual, criterion
        manualReason := some (S "Scroll check requires scrollable element selector")
        confidence := 0 }

/-- `mapStateChangeCheck`. -/
def mapStateChangeCheck (criterion : AcceptanceCriterion) : MappedCheck :=
  { type := .manual, criterion
    manualReason := some (S "State change verification requires multi-step flow")
    confidence := 0 }

/-- `mapLayoutCheck`. -/
def mapLayoutCheck (criterion : AcceptanceCriterion) : MappedCheck :=
  { type := .visual, criterion
    visualConfig := some {}
    confidence := 1 / 2 }

/-- The `CriterionType` union member as its source string. -/
def criterionTypeStr : CriterionType → Str
  | .element_visible => S "element_visible"
  | .element_text => S "element_text"
  | .element_color => S "element_color"
  | .interaction => S "interaction"
  | .layout => S "layout"
  | .navigation => S "navigation"
  | .modal => S "modal"
  | .scroll => S "scroll"
  | .state_change => S "state_change"
  | .flow_step => S "flow_step"
  | .prerequisite => S "prerequisite"
  | .manual => S "manual"

/-- Embedding of `mapCriterionToCheck` (monolithic mapper variant). -/
def mapCriterionToCheck (criterion : AcceptanceCriterion) : MappedCheck :=
  match criterion.type with
  | .element_visible => mapElementVisibilityCheck criterion
  | .element_text => mapTextAssertionCheck criterion
  | .element_color => mapColorCheck criterion
  | .interaction => mapInteractionCheck criterion
  | .modal => mapModalCheck criterion
  | .navigation => mapNavigationCheck criterion
  | .scroll => mapScrollCheck criterion
  | .state_change => mapStateChangeCheck criterion
  | .layout => mapLayoutCheck criterion
  | t =>
    { type := .manual, criterion
      manualReason := some (S "Criterion type \"" ++ criterionTypeStr t ++
        S "\" requires manual verification")
      confidence := 0 }

theorem scaled_conf_bounds {c q : ℚ} (h0 : 0 ≤ c) (h1 : c ≤ 1) (hq0 : 0 ≤ q)
    (hq1 : q ≤ 1) : 0 ≤ c * q ∧ c * q ≤ 1 :=
  ⟨mul_nonneg h0 hq0, by nlinarith⟩

theorem visCheck_none (c : AcceptanceCriterion) (hsel : c.config.selector = none) :
    (mapElementVisibilityCheck c).type = .manual ∧
      (mapElementVisibilityCheck c).confidence = 0 := by
  unfold mapElementVisibilityCheck
  rw [hsel]
  exact ⟨rfl, rfl⟩

theorem visCheck_some (c : AcceptanceCriterion) (sel : ElementSelector)
    (hsel : c.config.selector = some sel) :
    (mapElementVisibilityCheck c).type = .detox ∧
      (mapElementVisibilityCheck c).confidence = sel.confidence := by
  unfold mapElementVisibilityCheck
  rw [hsel]
  exact ⟨rfl, rfl⟩

theorem textCheck_guard (c : AcceptanceCriterion) (hsel : c.config.selector = none)
    (htxt : optStrTruthy c.config.expectedText = false) :
    (mapTextAssertionCheck c).type = .manual ∧
      (mapTextAssertionCheck c).confidence = 0 := by
  unfold mapTextAssertionCheck
  simp only []
  rw [if_pos ⟨hsel, htxt⟩]
  exact ⟨rfl, rfl⟩

theorem textCheck_some (c : AcceptanceCriterion) (sel : ElementSelector)
    (hsel : c.config.selector = some sel) :
    (mapTextAssertionCheck c).type = .detox ∧
      (mapTextAssertionCheck c).confidence = sel.confidence := by
  unfold mapTextAssertionCheck
  simp only []
  rw [hsel]
  rw [if_neg (by rintro ⟨h, -⟩; exact Option.noConfusion h)]
  exact ⟨rfl, rfl⟩

theorem textCheck_textonly (c : AcceptanceCriterion)
    (hsel : c.config.selector = none)
    (htxt : optStrTruthy c.config.expectedText = true) :
    (mapTextAssertionCheck c).type = .detox ∧
      (mapTextAssertionCheck c).confidence = 1 / 2 := by
  unfold mapTextAssertionCheck
  simp only []
  rw [hsel]
  rw [if_neg (by rintro ⟨-, h⟩; rw [htxt] at h; exact Bool.noConfusion h)]
  exact ⟨rfl, rfl⟩

theorem colorCheck_none (c : AcceptanceCriterion)
    (hcol : optStrTruthy c.config.colorHex = false) :
    (mapColorCheck c).type = .manual ∧ (mapColorCheck c).confidence = 0 := by
  unfold mapColorCheck
  rw [if_pos hcol]
  exact ⟨rfl, rfl⟩

theorem colorCheck_some (c : AcceptanceCriterion)
    (hcol : optStrTruthy c.config.colorHex = true) :
    (mapColorCheck c).type = .screenshot_analysis ∧
      (mapColorCheck c).confidence = 6 / 10 := by
  unfold mapColorCheck
  rw [if_neg (by intro h; rw [hcol] at h; exact Bool.noConfusion h)]
  exact ⟨rfl, rfl⟩

theorem interCheck_none (c : AcceptanceCriterion) (hsel : c.config.selector = none) :
    (mapInteractionCheck c).type = .manual ∧
      (mapInteractionCheck c).confidence = 0 := by
  unfold mapInteractionCheck
  simp only []
  rw [hsel]
  exact ⟨rfl, rfl⟩

theorem interCheck_some (c : AcceptanceCriterion) (sel : ElementSelector)
    (hsel : c.config.selector = some sel) :
    (mapInteractionCheck c).type = .detox ∧
      (mapInteractionCheck c).confidence = sel.confidence * (9 / 10) := by
  unfold mapInteractionCheck
  simp only []
  rw [hsel]
  exact ⟨rfl, rfl⟩

theorem modalCheck_none (c : AcceptanceCriterion) (hsel : c.config.selector = none) :
    (mapModalCheck c).type = .manual ∧ (mapModalCheck c).confidence = 0 := by
  unfold mapModalCheck
  simp only []
  rw [hsel]
  split
  · exact ⟨rfl, rfl⟩
  · exact ⟨rfl, rfl⟩

theorem modalCheck_some (c : AcceptanceCriterion) (sel : ElementSelector)
    (hsel : c.config.selector = some sel) :
    (mapModalCheck c).type = .detox ∧
      (mapModalCheck c).confidence = sel.confidence * (8 / 10) := by
  unfold mapModalCheck
  simp only []
  rw [hsel]
  rw [if_neg (by rintro ⟨h, -⟩; exact Option.noConfusion h)]
  exact ⟨rfl, rfl⟩

theorem navCheck_none (c : AcceptanceCriterion) (hsel : c.config.selector = none) :
    (mapNavigationCheck c).type = .manual ∧
      (mapNavigationCheck c).confidence = 0 := by
  unfold mapNavigationCheck
  rw [hsel]
  exact ⟨rfl, rfl⟩

theorem navCheck_some (c : AcceptanceCriterion) (sel : ElementSelector)
    (hsel : c.config.selector = some sel) :
    (mapNavigationCheck c).type = .detox ∧
      (mapNavigationCheck c).confidence = sel.confidence * (7 / 10) := by
  unfold mapNavigationCheck
  rw [hsel]
  exact ⟨rfl, rfl⟩

theorem scrollCheck_smooth (c : AcceptanceCriterion)
    (hg : scrollSmoothGuard c = true) :
    (mapScrollCheck c).type = .manual ∧ (mapScrollCheck c).confidence = 0 := by
  unfold mapScrollCheck
  simp only []
  rw [if_pos hg]
  exact ⟨rfl, rfl⟩

theorem scrollCheck_plain_none (c : AcceptanceCriterion)
    (hg : scrollSmoothGuard c = false) (hsel : c.config.selector = none) :
    (mapScrollCheck c).type = .manual ∧ (mapScrollCheck c).confidence = 0 := by
  unfold mapScrollCheck
  simp only []
  rw [hsel]
  rw [if_neg (by intro h; rw [hg] at h; exact Bool.noConfusion h)]
  exact ⟨rfl, rfl⟩

theorem scrollCheck_plain_some (c : AcceptanceCriterion) (sel : ElementSelector)
    (hg : scrollSmoothGuard c = false) (hsel : c.config.selector = some sel) :
    (mapScrollCheck c).type = .detox ∧
      (mapScrollCheck c).confidence = sel.confidence * (6 / 10) := by
  unfold mapScrollCheck
  simp only []
  rw [hsel]
  rw [if_neg (by intro h; rw [hg] at h; exact Bool.noConfusion h)]
  exact ⟨rfl, rfl⟩

/-- The confidence-propagation contract of `mapCriterionToCheck` asserted by
the specification (stated as one predicate so the witness below can reuse
it). -/
def confidencePropagationSpec (criterion : AcceptanceCriterion) : Prop :=
  (0 ≤ (mapCriterionToCheck criterion).confidence ∧
    (mapCriterionToCheck criterion).confidence ≤ 1) ∧
  ((mapCriterionToCheck criterion).type = .manual →
    (mapCriterionToCheck criterion).confidence = 0) ∧
  (criterion.type = .element_visible → ∀ sel,
    criterion.config.selector = some sel →
    (mapCriterionToCheck criterion).type = .detox ∧
    (mapCriterionToCheck criterion).confidence = sel.confidence) ∧
  (criterion.type = .element_visible → criterion.config.selector = none →
    (mapCriterionToCheck criterion).type = .manual) ∧
  (criterion.type = .element_text → ∀ sel,
    criterion.config.selector = some sel →
    (mapCriterionToCheck criterion).type = .detox ∧
    (mapCriterionToCheck criterion).confidence = sel.confidence) ∧
  (criterion.type = .element_text → criterion.config.selector = none →
    optStrTruthy criterion.config.expectedText = true →
    (mapCriterionToCheck criterion).type = .detox ∧
    (mapCriterionToCheck criterion).confidence = 1 / 2) ∧
  (criterion.type = .element_text → criterion.config.selector = none →
    optStrTruthy criterion.config.expectedText = false →
    (mapCriterionToCheck criterion).type = .manual) ∧
  (criterion.type = .element_color → optStrTruthy criterion.config.colorHex = true →
    (mapCriterionToCheck criterion).type = .screenshot_analysis ∧
    (mapCriterionToCheck criterion).confidence = 6 / 10) ∧
  (criterion.type = .element_color → optStrTruthy criterion.config.colorHex = false →
    (mapCriterionToCheck criterion).type = .manual) ∧
  (criterion.type = .interaction → ∀ sel,
    criterion.config.selector = some sel →
    (mapCriterionToCheck criterion).type = .detox ∧
    (mapCriterionToCheck criterion).confidence = sel.confidence * (9 / 10)) ∧
  (criterion.type = .interaction → criterion.config.selector = none →
    (mapCriterionToCheck criterion).type = .manual) ∧
  (criterion.type = .modal → ∀ sel,
    criterion.config.selector = some sel →
    (mapCriterionToCheck criterion).type = .detox ∧
    (mapCriterionToCheck criterion).confidence = sel.confidence * (8 / 10)) ∧
  (criterion.type = .modal → criterion.config.selector = none →
    (mapCriterionToCheck criterion).type = .manual) ∧
  (criterion.type = .navigation → ∀ sel,
    criterion.config.selector = some sel →
    (mapCriterionToCheck criterion).type = .detox ∧
    (mapCriterionToCheck criterion).confidence = sel.confidence * (7 / 10)) ∧
  (criterion.type = .navigation → criterion.config.selector = none →
    (mapCriterionToCheck criterion).type = .manual) ∧
  (criterion.type = .scroll → scrollSmoothGuard criterion = false → ∀ sel,
    criterion.config.selector = some sel →
    (mapCriterionToCheck criterion).type = .detox ∧
    (mapCriterionToCheck criterion).confidence = sel.confidence * (6 / 10)) ∧
  (criterion.type = .scroll → scrollSmoothGuard criterion = true →
    (mapCriterionToCheck criterion).type = .manual) ∧
  (criterion.type = .scroll → criterion.config.selector = none →
    (mapCriterionToCheck criterion).type = .manual) ∧
  (criterion.type = .layout →
    (mapCriterionToCheck criterion).type = .visual ∧
    (mapCriterionToCheck criterion).confidence = 1 / 2) ∧
  ((criterion.type = .state_change ∨ criterion.type = .flow_step ∨
    criterion.type = .prerequisite ∨ criterion.type = .manual) →
    (mapCriterionToCheck criterion).type = .manual ∧
    (mapCriterionToCheck criterion).confidence = 0)

/-- C5: for every classified criterion whose inferred selector confidence is
in `[0, 1]`, `mapCriterionToCheck` returns a confidence in `[0, 1]` and
follows the stated propagation rules: visibility keeps the selector
confidence, text keeps it (or 0.5 when only expected text exists), interaction
multiplies by 0.9, modal by 0.8, navigation by 0.7, scroll by 0.6, color is
fixed at 0.6 as a screenshot-analysis check, layout is fixed at 0.5 as a
visual check, and unrecognized types or missing required inputs produce a
manual check with confidence 0. -/
theorem mapCriterionToCheck_confidence (criterion : AcceptanceCriterion)
    (hconf : ∀ sel, criterion.config.selector = some sel →
      0 ≤ sel.confidence ∧ sel.confidence ≤ 1) :
    confidencePropagationSpec criterion := by
  unfold confidencePropagationSpec
  cases htype : criterion.type with
  | element_visible =>
    have hmc : mapCriterionToCheck criterion = mapElementVisibilityCheck criterion := by
      unfold mapCriterionToCheck
      rw [htype]
    rw [hmc]
    rcases hsel : criterion.config.selector with _ | sel
    · obtain ⟨hty, hcf⟩ := visCheck_none criterion hsel
      refine ⟨?_, ?_, ?_, ?_, ?_, ?_, ?_, ?_, ?_, ?_, ?_, ?_, ?_, ?_, ?_, ?_, ?_, ?_, ?_, ?_⟩
      · exact ⟨by simp [hcf], by rw [hcf]; norm_num⟩
      · exact fun _ => hcf
      · intro _ sel' hs'; exact Option.noConfusion hs'
      · exact fun _ _ => hty
      · intro h; exact absurd h (by decide)
      · intro h; exact absurd h (by decide)
      · intro h; exact absurd h (by decide)
      · intro h; exact absurd h (by decide)
      · intro h; exact absurd h (by decide)
      · intro h; exact absurd h (by decide)
      · intro h; exact absurd h (by decide)
      · intro h; exact absurd h (by decide)
      · intro h; exact absurd h (by decide)
      · intro h; exact absurd h (by decide)
      · intro h; exact absurd h (by decide)
      · intro h; exact absurd h (by decide)
      · intro h; exact absurd h (by decide)
      · intro h; exact absurd h (by decide)
      · intro h; exact absurd h (by decide)
      · intro h; rcases h with h | h | h | h <;> exact absurd h (by decide)
    · obtain ⟨hty, hcf⟩ := visCheck_some criterion sel hsel
      obtain ⟨h0, h1⟩ := hconf sel hsel
      refine ⟨?_, ?_, ?_, ?_, ?_, ?_, ?_, ?_, ?_, ?_, ?_, ?_, ?_, ?_, ?_, ?_, ?_, ?_, ?_, ?_⟩
      · exact ⟨by rw [hcf]; exact h0, by rw [hcf]; exact h1⟩
      · intro h; rw [hty] at h; exact absurd h (by decide)
      · intro _ sel' hs'; injection hs' with he; subst he; exact ⟨hty, hcf⟩
      · intro _ h; exact Option.noConfusion h
      · intro h; exact absurd h (by decide)
      · intro h; exact absurd h (by decide)
      · intro h; exact absurd h (by decide)
      · intro h; exact absurd h (by decide)
      · intro h; exact absurd h (by decide)
      · intro h; exact absurd h (by decide)
      · intro h; exact absurd h (by decide)
      · intro h; exact absurd h (by decide)
      · intro h; exact absurd h (by decide)
      · intro h; exact absurd h (by decide)
      · intro h; exact absurd h (by decide)
      · intro h; exact absurd h (by decide)
      · intro h; exact absurd h (by decide)
      · intro h; exact absurd h (by decide)
      · intro h; exact absurd h (by decide)
      · intro h; rcases h with h | h | h | h <;> exact absurd h (by decide)
  | element_text =>
    have hmc : mapCriterionToCheck criterion = mapTextAssertionCheck criterion := by
      unfold mapCriterionToCheck
      rw [htype]
    rw [hmc]
    rcases hsel : criterion.config.selector with _ | sel
    · cases htxt : optStrTruthy criterion.config.expectedText with
      | false =>
        obtain ⟨hty, hcf⟩ := textCheck_guard criterion hsel htxt
        refine ⟨?_, ?_, ?_, ?_, ?_, ?_, ?_, ?_, ?_, ?_, ?_, ?_, ?_, ?_, ?_, ?_, ?_, ?_, ?_, ?_⟩
        · exact ⟨by simp [hcf], by rw [hcf]; norm_num⟩
        · exact fun _ => hcf
        · intro h; exact absurd h (by decide)
        · intro h; exact absurd h (by decide)
        · intro _ sel' hs'; exact Option.noConfusion hs'
        · intro _ _ h; exact Bool.noConfusion h
        · exact fun _ _ _ => hty
        · intro h; exact absurd h (by decide)
        · intro h; exact absurd h (by decide)
        · intro h; exact absurd h (by decide)
        · intro h; exact absurd h (by decide)
        · intro h; exact absurd h (by decide)
        · intro h; exact absurd h (by decide)
        · intro h; exact absurd h (by decide)
        · intro h; exact absurd h (by decide)
        · intro h; exact absurd h (by decide)
        · intro h; exact absurd h (by decide)
        · intro h; exact absurd h (by decide)
        · intro h; exact absurd h (by decide)
        · intro h; rcases h with h | h | h | h <;> exact absurd h (by decide)
      | true =>
        obtain ⟨hty, hcf⟩ := textCheck_textonly criterion hsel htxt
        refine ⟨?_, ?_, ?_, ?_, ?_, ?_, ?_, ?_, ?_, ?_, ?_, ?_, ?_, ?_, ?_, ?_, ?_, ?_, ?_, ?_⟩
        · exact ⟨by rw [hcf]; norm_num, by rw [hcf]; norm_num⟩
        · intro h; rw [hty] at h; exact absurd h (by decide)
        · intro h; exact absurd h (by decide)
        · intro h; exact absurd h (by decide)
        · intro _ sel' hs'; exact Option.noConfusion hs'
        · exact fun _ _ _ => ⟨hty, hcf⟩
        · intro _ _ h; exact Bool.noConfusion h
        · intro h; exact absurd h (by decide)
        · intro h; exact absurd h (by decide)
        · intro h; exact absurd h (by decide)
        · intro h; exact absurd h (by decide)
        · intro h; exact absurd h (by decide)
        · intro h; exact absurd h (by decide)
        · intro h; exact absurd h (by decide)
        · intro h; exact absurd h (by decide)
        · intro h; exact absurd h (by decide)
        · intro h; exact absurd h (by decide)
        · intro h; exact absurd h (by decide)
        · intro h; exact absurd h (by decide)
        · intro h; rcases h with h | h | h | h <;> exact absurd h (by decide)
    · obtain ⟨hty, hcf⟩ := textCheck_some criterion sel hsel
      obtain ⟨h0, h1⟩ := hconf sel hsel
      refine ⟨?_, ?_, ?_, ?_, ?_, ?_, ?_, ?_, ?_, ?_, ?_, ?_, ?_, ?_, ?_, ?_, ?_, ?_, ?_, ?_⟩
      · exact ⟨by rw [hcf]; exact h0, by rw [hcf]; exact h1⟩
      · intro h; rw [hty] at h; exact absurd h (by decide)
      · intro h; exact absurd h (by decide)
      · intro h; exact absurd h (by decide)
      · intro _ sel' hs'; injection hs' with he; subst he; exact ⟨hty, hcf⟩
      · intro _ h; exact Option.noConfusion h
      · intro _ h; exact Option.noConfusion h
      · intro h; exact absurd h (by decide)
      · intro h; exact absurd h (by decide)
      · intro h; exact absurd h (by decide)
      · intro h; exact absurd h (by decide)
      · intro h; exact absurd h (by decide)
      · intro h; exact absurd h (by decide)
      · intro h; exact absurd h (by decide)
      · intro h; exact absurd h (by decide)
      · intro h; exact absurd h (by decide)
      · intro h; exact absurd h (by decide)
      · intro h; exact absurd h (by decide)
      · intro h; exact absurd h (by decide)
      · intro h; rcases h with h | h | h | h <;> exact absurd h (by decide)
  | element_color =>
    have hmc : mapCriterionToCheck criterion = mapColorCheck criterion := by
      unfold mapCriterionToCheck
      rw [htype]
    rw [hmc]
    cases hcol : optStrTruthy criterion.config.colorHex with
    | false =>
      obtain ⟨hty, hcf⟩ := colorCheck_none criterion hcol
      refine ⟨?_, ?_, ?_, ?_, ?_, ?_, ?_, ?_, ?_, ?_, ?_, ?_, ?_, ?_, ?_, ?_, ?_, ?_, ?_, ?_⟩
      · exact ⟨by simp [hcf], by rw [hcf]; norm_num⟩
      · exact fun _ => hcf
      · intro h; exact absurd h (by decide)
      · intro h; exact absurd h (by decide)
      · intro h; exact absurd h (by decide)
      · intro h; exact absurd h (by decide)
      · intro h; exact absurd h (by decide)
      · intro _ h; exact Bool.noConfusion h
      · exact fun _ _ => hty
      · intro h; exact absurd h (by decide)
      · intro h; exact absurd h (by decide)
      · intro h; exact absurd h (by decide)
      · intro h; exact absurd h (by decide)
      · intro h; exact absurd h (by decide)
      · intro h; exact absurd h (by decide)
      · intro h; exact absurd h (by decide)
      · intro h; exact absurd h (by decide)
      · intro h; exact absurd h (by decide)
      · intro h; exact absurd h (by decide)
      · intro h; rcases h with h | h | h | h <;> exact absurd h (by decide)
    | true =>
      obtain ⟨hty, hcf⟩ := colorCheck_some criterion hcol
      refine ⟨?_, ?_, ?_, ?_, ?_, ?_, ?_, ?_, ?_, ?_, ?_, ?_, ?_, ?_, ?_, ?_, ?_, ?_, ?_, ?_⟩
      · exact ⟨by rw [hcf]; norm_num, by rw [hcf]; norm_num⟩
      · intro h; rw [hty] at h; exact absurd h (by decide)
      · intro h; exact absurd h (by decide)
      · intro h; exact absurd h (by decide)
      · intro h; exact absurd h (by decide)
      · intro h; exact absurd h (by decide)
      · intro h; exact absurd h (by decide)
      · exact fun _ _ => ⟨hty, hcf⟩
      · intro _ h; exact Bool.noConfusion h
      · intro h; exact absurd h (by decide)
      · intro h; exact absurd h (by decide)
      · intro h; exact absurd h (by decide)
      · intro h; exact absurd h (by decide)
      · intro h; exact absurd h (by decide)
      · intro h; exact absurd h (by decide)
      · intro h; exact absurd h (by decide)
      · intro h; exact absurd h (by decide)
      · intro h; exact absurd h (by decide)
      · intro h; exact absurd h (by decide)
      · intro h; rcases h with h | h | h | h <;> exact absurd h (by decide)
  | interaction =>
    have hmc : mapCriterionToCheck criterion = mapInteractionCheck criterion := by
      unfold mapCriterionToCheck
      rw [htype]
    rw [hmc]
    rcases hsel : criterion.config.selector with _ | sel
    · obtain ⟨hty, hcf⟩ := interCheck_none criterion hsel
      refine ⟨?_, ?_, ?_, ?_, ?_, ?_, ?_, ?_, ?_, ?_, ?_, ?_, ?_, ?_, ?_, ?_, ?_, ?_, ?_, ?_⟩
      · exact ⟨by simp [hcf], by rw [hcf]; norm_num⟩
      · exact fun _ => hcf
      · intro h; exact absurd h (by decide)
      · intro h; exact absurd h (by decide)
      · intro h; exact absurd h (by decide)
      · intro h; exact absurd h (by decide)
      · intro h; exact absurd h (by decide)
      · intro h; exact absurd h (by decide)
      · intro h; exact absurd h (by decide)
      · intro _ sel' hs'; exact Option.noConfusion hs'
      · exact fun _ _ => hty
      · intro h; exact absurd h (by decide)
      · intro h; exact absurd h (by decide)
      · intro h; exact absurd h (by decide)
      · intro h; exact absurd h (by decide)
      · intro h; exact absurd h (by decide)
      · intro h; exact absurd h (by decide)
      · intro h; exact absurd h (by decide)
      · intro h; exact absurd h (by decide)
      · intro h; rcases h with h | h | h | h <;> exact absurd h (by decide)
    · obtain ⟨hty, hcf⟩ := interCheck_some criterion sel hsel
      obtain ⟨h0, h1⟩ := hconf sel hsel
      obtain ⟨hb0, hb1⟩ := scaled_conf_bounds h0 h1
        (by norm_num : (0 : ℚ) ≤ 9 / 10) (by norm_num)
      refine ⟨?_, ?_, ?_, ?_, ?_, ?_, ?_, ?_, ?_, ?_, ?_, ?_, ?_, ?_, ?_, ?_, ?_, ?_, ?_, ?_⟩
      · exact ⟨by rw [hcf]; exact hb0, by rw [hcf]; exact hb1⟩
      · intro h; rw [hty] at h; exact absurd h (by decide)
      · intro h; exact absurd h (by decide)
      · intro h; exact absurd h (by decide)
      · intro h; exact absurd h (by decide)
      · intro h; exact absurd h (by decide)
      · intro h; exact absurd h (by decide)
      · intro h; exact absurd h (by decide)
      · intro h; exact absurd h (by decide)
      · intro _ sel' hs'; injection hs' with he; subst he; exact ⟨hty, hcf⟩
      · intro _ h; exact Option.noConfusion h
      · intro h; exact absurd h (by decide)
      · intro h; exact absurd h (by decide)
      · intro h; exact absurd h (by decide)
      · intro h; exact absurd h (by decide)
      · intro h; exact absurd h (by decide)
      · intro h; exact absurd h (by decide)
      · intro h; exact absurd h (by decide)
      · intro h; exact absurd h (by decide)
      · intro h; rcases h with h | h | h | h <;> exact absurd h (by decide)
  | modal =>
    have hmc : mapCriterionToCheck criterion = mapModalCheck criterion := by
      unfold mapCriterionToCheck
      rw [htype]
    rw [hmc]
    rcases hsel : criterion.config.selector with _ | sel
    · obtain ⟨hty, hcf⟩ := modalCheck_none criterion hsel
      refine ⟨?_, ?_, ?_, ?_, ?_, ?_, ?_, ?_, ?_, ?_, ?_, ?_, ?_, ?_, ?_, ?_, ?_, ?_, ?_, ?_⟩
      · exact ⟨by simp [hcf], by rw [hcf]; norm_num⟩
      · exact fun _ => hcf
      · intro h; exact absurd h (by decide)
      · intro h; exact absurd h (by decide)
      · intro h; exact absurd h (by decide)
      · intro h; exact absurd h (by decide)
      · intro h; exact absurd h (by decide)
      · intro h; exact absurd h (by decide)
      · intro h; exact absurd h (by decide)
      · intro h; exact absurd h (by decide)
      · intro h; exact absurd h (by decide)
      · intro _ sel' hs'; exact Option.noConfusion hs'
      · exact fun _ _ => hty
      · intro h; exact absurd h (by decide)
      · intro h; exact absurd h (by decide)
      · intro h; exact absurd h (by decide)
      · intro h; exact absurd h (by decide)
      · intro h; exact absurd h (by decide)
      · intro h; exact absurd h (by decide)
      · intro h; rcases h with h | h | h | h <;> exact absurd h (by decide)
    · obtain ⟨hty, hcf⟩ := modalCheck_some criterion sel hsel
      obtain ⟨h0, h1⟩ := hconf sel hsel
      obtain ⟨hb0, hb1⟩ := scaled_conf_bounds h0 h1
        (by norm_num : (0 : ℚ) ≤ 8 / 10) (by norm_num)
      refine ⟨?_, ?_, ?_, ?_, ?_, ?_, ?_, ?_, ?_, ?_, ?_, ?_, ?_, ?_, ?_, ?_, ?_, ?_, ?_, ?_⟩
      · exact ⟨by rw [hcf]; exact hb0, by rw [hcf]; exact hb1⟩
      · intro h; rw [hty] at h; exact absurd h (by decide)
      · intro h; exact absurd h (by decide)
      · intro h; exact absurd h (by decide)
      · intro h; exact absurd h (by decide)
      · intro h; exact absurd h (by decide)
      · intro h; exact absurd h (by decide)
      · intro h; exact absurd h (by decide)
      · intro h; exact absurd h (by decide)
      · intro h; exact absurd h (by decide)
      · intro h; exact absurd h (by decide)
      · intro _ sel' hs'; injection hs' with he; subst he; exact ⟨hty, hcf⟩
      · intro _ h; exact Option.noConfusion h
      · intro h; exact absurd h (by decide)
      · intro h; exact absurd h (by decide)
      · intro h; exact absurd h (by decide)
      · intro h; exact absurd h (by decide)
      · intro h; exact absurd h (by decide)
      · intro h; exact absurd h (by decide)
      · intro h; rcases h with h | h | h | h <;> exact absurd h (by decide)
  | navigation =>
    have hmc : mapCriterionToCheck criterion = mapNavigationCheck criterion := by
      unfold mapCriterionToCheck
      rw [htype]
    rw [hmc]
    rcases hsel : criterion.config.selector with _ | sel
    · obtain ⟨hty, hcf⟩ := navCheck_none criterion hsel
      refine ⟨?_, ?_, ?_, ?_, ?_, ?_, ?_, ?_, ?_, ?_, ?_, ?_, ?_, ?_, ?_, ?_, ?_, ?_, ?_, ?_⟩
      · exact ⟨by simp [hcf], by rw [hcf]; norm_num⟩
      · exact fun _ => hcf
      · intro h; exact absurd h (by decide)
      · intro h; exact absurd h (by decide)
      · intro h; exact absurd h (by decide)
      · intro h; exact absurd h (by decide)
      · intro h; exact absurd h (by decide)
      · intro h; exact absurd h (by decide)
      · intro h; exact absurd h (by decide)
      · intro h; exact absurd h (by decide)
      · intro h; exact absurd h (by decide)
      · intro h; exact absurd h (by decide)
      · intro h; exact absurd h (by decide)
      · intro _ sel' hs'; exact Option.noConfusion hs'
      · exact fun _ _ => hty
      · intro h; exact absurd h (by decide)
      · intro h; exact absurd h (by decide)
      · intro h; exact absurd h (by decide)
      · intro h; exact absurd h (by decide)
      · intro h; rcases h with h | h | h | h <;> exact absurd h (by decide)
    · obtain ⟨hty, hcf⟩ := navCheck_some criterion sel hsel
      obtain ⟨h0, h1⟩ := hconf sel hsel
      obtain ⟨hb0, hb1⟩ := scaled_conf_bounds h0 h1
        (by norm_num : (0 : ℚ) ≤ 7 / 10) (by norm_num)
      refine ⟨?_, ?_, ?_, ?_, ?_, ?_, ?_, ?_, ?_, ?_, ?_, ?_, ?_, ?_, ?_, ?_, ?_, ?_, ?_, ?_⟩
      · exact ⟨by rw [hcf]; exact hb0, by rw [hcf]; exact hb1⟩
      · intro h; rw [hty] at h; exact absurd h (by decide)
      · intro h; exact absurd h (by decide)
      · intro h; exact absurd h (by decide)
      · intro h; exact absurd h (by decide)
      · intro h; exact absurd h (by decide)
      · intro h; exact absurd h (by decide)
      · intro h; exact absurd h (by decide)
      · intro h; exact absurd h (by decide)
      · intro h; exact absurd h (by decide)
      · intro h; exact absurd h (by decide)
      · intro h; exact absurd h (by decide)
      · intro h; exact absurd h (by decide)
      · intro _ sel' hs'; injection hs' with he; subst he; exact ⟨hty, hcf⟩
      · intro _ h; exact Option.noConfusion h
      · intro h; exact absurd h (by decide)
      · intro h; exact absurd h (by decide)
      · intro h; exact absurd h (by decide)
      · intro h; exact absurd h (by decide)
      · intro h; rcases h with h | h | h | h <;> exact absurd h (by decide)
  | scroll =>
    have hmc : mapCriterionToCheck criterion = mapScrollCheck criterion := by
      unfold mapCriterionToCheck
      rw [htype]
    rw [hmc]
    cases hg : scrollSmoothGuard criterion with
    | true =>
      obtain ⟨hty, hcf⟩ := scrollCheck_smooth criterion hg
      refine ⟨?_, ?_, ?_, ?_, ?_, ?_, ?_, ?_, ?_, ?_, ?_, ?_, ?_, ?_, ?_, ?_, ?_, ?_, ?_, ?_⟩
      · exact ⟨by simp [hcf], by rw [hcf]; norm_num⟩
      · exact fun _ => hcf
      · intro h; exact absurd h (by decide)
      · intro h; exact absurd h (by decide)
      · intro h; exact absurd h (by decide)
      · intro h; exact absurd h (by decide)
      · intro h; exact absurd h (by decide)
      · intro h; exact absurd h (by decide)
      · intro h; exact absurd h (by decide)
      · intro h; exact absurd h (by decide)
      · intro h; exact absurd h (by decide)
      · intro h; exact absurd h (by decide)
      · intro h; exact absurd h (by decide)
      · intro h; exact absurd h (by decide)
      · intro h; exact absurd h (by decide)
      · intro _ h; exact Bool.noConfusion h
      · exact fun _ _ => hty
      · exact fun _ _ => hty
      · intro h; exact absurd h (by decide)
      · intro h; rcases h with h | h | h | h <;> exact absurd h (by decide)
    | false =>
      rcases hsel : criterion.config.selector with _ | sel
      · obtain ⟨hty, hcf⟩ := scrollCheck_plain_none criterion hg hsel
        refine ⟨?_, ?_, ?_, ?_, ?_, ?_, ?_, ?_, ?_, ?_, ?_, ?_, ?_, ?_, ?_, ?_, ?_, ?_, ?_, ?_⟩
        · exact ⟨by simp [hcf], by rw [hcf]; norm_num⟩
        · exact fun _ => hcf
        · intro h; exact absurd h (by decide)
        · intro h; exact absurd h (by decide)
        · intro h; exact absurd h (by decide)
        · intro h; exact absurd h (by decide)
        · intro h; exact absurd h (by decide)
        · intro h; exact absurd h (by decide)
        · intro h; exact absurd h (by decide)
        · intro h; exact absurd h (by decide)
        · intro h; exact absurd h (by decide)
        · intro h; exact absurd h (by decide)
        · intro h; exact absurd h (by decide)
        · intro h; exact absurd h (by decide)
        · intro h; exact absurd h (by decide)
        · intro _ _ sel' hs'; exact Option.noConfusion hs'
        · intro _ h; exact Bool.noConfusion h
        · exact fun _ _ => hty
        · intro h; exact absurd h (by decide)
        · intro h; rcases h with h | h | h | h <;> exact absurd h (by decide)
      · obtain ⟨hty, hcf⟩ := scrollCheck_plain_some criterion sel hg hsel
        obtain ⟨h0, h1⟩ := hconf sel hsel
        obtain ⟨hb0, hb1⟩ := scaled_conf_bounds h0 h1
          (by norm_num : (0 : ℚ) ≤ 6 / 10) (by norm_num)
        refine ⟨?_, ?_, ?_, ?_, ?_, ?_, ?_, ?_, ?_, ?_, ?_, ?_, ?_, ?_, ?_, ?_, ?_, ?_, ?_, ?_⟩
        · exact ⟨by rw [hcf]; exact hb0, by rw [hcf]; exact hb1⟩
        · intro h; rw [hty] at h; exact absurd h (by decide)
        · intro h; exact absurd h (by decide)
        · intro h; exact absurd h (by decide)
        · intro h; exact absurd h (by decide)
        · intro h; exact absurd h (by decide)
        · intro h; exact absurd h (by decide)
        · intro h; exact absurd h (by decide)
        · intro h; exact absurd h (by decide)
        · intro h; exact absurd h (by decide)
        · intro h; exact absurd h (by decide)
        · intro h; exact absurd h (by decide)
        · intro h; exact absurd h (by decide)
        · intro h; exact absurd h (by decide)
        · intro h; exact absurd h (by decide)
        · intro _ _ sel' hs'; injection hs' with he; subst he; exact ⟨hty, hcf⟩
        · intro _ h; exact Bool.noConfusion h
        · intro _ h; exact Option.noConfusion h
        · intro h; exact absurd h (by decide)
        · intro h; rcases h with h | h | h | h <;> exact absurd h (by decide)
  | state_change =>
    have hty : (mapCriterionToCheck criterion).type = CheckType.manual := by
      unfold mapCriterionToCheck
      rw [htype]
      rfl
    have hcf : (mapCriterionToCheck criterion).confidence = 0 := by
      unfold mapCriterionToCheck
      rw [htype]
      rfl
    refine ⟨?_, ?_, ?_, ?_, ?_, ?_, ?_, ?_, ?_, ?_, ?_, ?_, ?_, ?_, ?_, ?_, ?_, ?_, ?_, ?_⟩
    · exact ⟨by simp [hcf], by rw [hcf]; norm_num⟩
    · exact fun _ => hcf
    · intro h; exact absurd h (by decide)
    · intro h; exact absurd h (by decide)
    · intro h; exact absurd h (by decide)
    · intro h; exact absurd h (by decide)
    · intro h; exact absurd h (by decide)
    · intro h; exact absurd h (by decide)
    · intro h; exact absurd h (by decide)
    · intro h; exact absurd h (by decide)
    · intro h; exact absurd h (by decide)
    · intro h; exact absurd h (by decide)
    · intro h; exact absurd h (by decide)
    · intro h; exact absurd h (by decide)
    · intro h; exact absurd h (by decide)
    · intro h; exact absurd h (by decide)
    · intro h; exact absurd h (by decide)
    · intro h; exact absurd h (by decide)
    · intro h; exact absurd h (by decide)
    · exact fun _ => ⟨hty, hcf⟩
  | layout =>
    have hty : (mapCriterionToCheck criterion).type = CheckType.visual := by
      unfold mapCriterionToCheck
      rw [htype]
      rfl
    have hcf : (mapCriterionToCheck criterion).confidence = 1 / 2 := by
      unfold mapCriterionToCheck
      rw [htype]
      rfl
    refine ⟨?_, ?_, ?_, ?_, ?_, ?_, ?_, ?_, ?_, ?_, ?_, ?_, ?_, ?_, ?_, ?_, ?_, ?_, ?_, ?_⟩
    · exact ⟨by rw [hcf]; norm_num, by rw [hcf]; norm_num⟩
    · intro h; rw [hty] at h; exact absurd h (by decide)
    · intro h; exact absurd h (by decide)
    · intro h; exact absurd h (by decide)
    · intro h; exact absurd h (by decide)
    · intro h; exact absurd h (by decide)
    · intro h; exact absurd h (by decide)
    · intro h; exact absurd h (by decide)
    · intro h; exact absurd h (by decide)
    · intro h; exact absurd h (by decide)
    · intro h; exact absurd h (by decide)
    · intro h; exact absurd h (by decide)
    · intro h; exact absurd h (by decide)
    · intro h; exact absurd h (by decide)
    · intro h; exact absurd h (by decide)
    · intro h; exact absurd h (by decide)
    · intro h; exact absurd h (by decide)
    · intro h; exact absurd h (by decide)
    · exact fun _ => ⟨hty, hcf⟩
    · intro h; rcases h with h | h | h | h <;> exact absurd h (by decide)
  | flow_step =>
    have hty : (mapCriterionToCheck criterion).type = CheckType.manual := by
      unfold mapCriterionToCheck
      rw [htype]
    have hcf : (mapCriterionToCheck criterion).confidence = 0 := by
      unfold mapCriterionToCheck
      rw [htype]
    refine ⟨?_, ?_, ?_, ?_, ?_, ?_, ?_, ?_, ?_, ?_, ?_, ?_, ?_, ?_, ?_, ?_, ?_, ?_, ?_, ?_⟩
    · exact ⟨by simp [hcf], by rw [hcf]; norm_num⟩
    · exact fun _ => hcf
    · intro h; exact absurd h (by decide)
    · intro h; exact absurd h (by decide)
    · intro h; exact absurd h (by decide)
    · intro h; exact absurd h (by decide)
    · intro h; exact absurd h (by decide)
    · intro h; exact absurd h (by decide)
    · intro h; exact absurd h (by decide)
    · intro h; exact absurd h (by decide)
    · intro h; exact absurd h (by decide)
    · intro h; exact absurd h (by decide)
    · intro h; exact absurd h (by decide)
    · intro h; exact absurd h (by decide)
    · intro h; exact absurd h (by decide)
    · intro h; exact absurd h (by decide)
    · intro h; exact absurd h (by decide)
    · intro h; exact absurd h (by decide)
    · intro h; exact absurd h (by decide)
    · exact fun _ => ⟨hty, hcf⟩
  | prerequisite =>
    have hty : (mapCriterionToCheck criterion).type = CheckType.manual := by
      unfold mapCriterionToCheck
      rw [htype]
    have hcf : (mapCriterionToCheck criterion).confidence = 0 := by
      unfold mapCriterionToCheck
      rw [htype]
    refine ⟨?_, ?_, ?_, ?_, ?_, ?_, ?_, ?_, ?_, ?_, ?_, ?_, ?_, ?_, ?_, ?_, ?_, ?_, ?_, ?_⟩
    · exact ⟨by simp [hcf], by rw [hcf]; norm_num⟩
    · exact fun _ => hcf
    · intro h; exact absurd h (by decide)
    · intro h; exact absurd h (by decide)
    · intro h; exact absurd h (by decide)
    · intro h; exact absurd h (by decide)
    · intro h; exact absurd h (by decide)
    · intro h; exact absurd h (by decide)
    · intro h; exact absurd h (by decide)
    · intro h; exact absurd h (by decide)
    · intro h; exact absurd h (by decide)
    · intro h; exact absurd h (by decide)
    · intro h; exact absurd h (by decide)
    · intro h; exact absurd h (by decide)
    · intro h; exact absurd h (by decide)
    · intro h; exact absurd h (by decide)
    · intro h; exact absurd h (by decide)
    · intro h; exact absurd h (by decide)
    · intro h; exact absurd h (by decide)
    · exact fun _ => ⟨hty, hcf⟩
  | manual =>
    have hty : (mapCriterionToCheck criterion).type = CheckType.manual := by
      unfold mapCriterionToCheck
      rw [htype]
    have hcf : (mapCriterionToCheck criterion).confidence = 0 := by
      unfold mapCriterionToCheck
      rw [htype]
    refine ⟨?_, ?_, ?_, ?_, ?_, ?_, ?_, ?_, ?_, ?_, ?_, ?_, ?_, ?_, ?_, ?_, ?_, ?_, ?_, ?_⟩
    · exact ⟨by simp [hcf], by rw [hcf]; norm_num⟩
    · exact fun _ => hcf
    · intro h; exact absurd h (by decide)
    · intro h; exact absurd h (by decide)
    · intro h; exact absurd h (by decide)
    · intro h; exact absurd h (by decide)
    · intro h; exact absurd h (by decide)
    · intro h; exact absurd h (by decide)
    · intro h; exact absurd h (by decide)
    · intro h; exact absurd h (by decide)
    · intro h; exact absurd h (by decide)
    · intro h; exact absurd h (by decide)
    · intro h; exact absurd h (by decide)
    · intro h; exact absurd h (by decide)
    · intro h; exact absurd h (by decide)
    · intro h; exact absurd h (by decide)
    · intro h; exact absurd h (by decide)
    · intro h; exact absurd h (by decide)
    · intro h; exact absurd h (by decide)
    · exact fun _ => ⟨hty, hcf⟩

/-- Witness for C5 at a concrete visibility criterion with a selector of
confidence 0.6. -/
theorem mapCriterionToCheck_confidence_witness :
    (∀ sel, sampleCriterion.config.selector = some sel →
      0 ≤ sel.confidence ∧ sel.confidence ≤ 1) ∧
    confidencePropagationSpec sampleCriterion := by
  have h : ∀ sel, sampleCriterion.config.selector = some sel →
      0 ≤ sel.confidence ∧ sel.confidence ≤ 1 := by
    intro sel hsel
    have h2 : some sampleSelector = some sel := hsel
    injection h2 with he
    subst he
    constructor <;> norm_num [sampleSelector]
  exact ⟨h, mapCriterionToCheck_confidence sampleCriterion h⟩

/-! ## Checker (src/acceptance/checker.ts)

The executor collaborator (`runDetoxAction`) and the screenshot collaborator
(`takeScreenshot`) live outside the embedded sources; their behaviours are
passed in as explicit oracles.  A thrown JS exception is modelled as the
`Except.error` carrying the message the `catch` block would extract.  The
wall clock (`Date.now()`, `toISOString()`) is passed in as explicit `startMs`,
`nowMs` and `nowIso` parameters, since no claim depends on timing. -/

/-- The `error` field of `RunnerResult` (src/detox/actions.ts):
`{code: string; message: string; details?: string}`. -/
structure RunnerError where
  code : Str
  message : Str
  details : Option Str := none
deriving DecidableEq

/-- Embedding of `RunnerResult` (src/detox/actions.ts, the detox action
runner): `{success: boolean; elapsedMs?: number; data?: Record<string,
unknown>; error?: {code, message, details?}; evidence?: string[]}`.  The
opaque `data` payload of `unknown`-typed values is omitted: no embedded
consumer reads it (the checker uses only `success`, `error` and
`evidence`). -/
structure RunnerResult where
  success : Bool
  elapsedMs : Option Nat := none
  error : Option RunnerError := none
  evidence : Option (List Str) := none
deriving DecidableEq

/-- JS `result.error?.message || "Unknown failure"` (an empty message is
falsy). -/
def errorMessageOf (result : RunnerResult) : Str :=
  match result.error with
  | some e => if e.message.isEmpty then S "Unknown failure" else e.message
  | none => S "Unknown failure"

/-- The ordered element-not-found phrase variants of `analyzeDetoxFailure`. -/
def elementNotFoundPatterns : List Str :=
  [S "cannot find", S "element not found", S "no matching element",
   S "unable to find", S "could not find", S "doesn\x27t exist",
   S "does not exist"]

/-- The evidence record attached by the failure analyzers. -/
def failureEvidence (result : RunnerResult) : CheckEvidence :=
  { screenshots := result.evidence.getD []
    logs := result.error.bind (fun e => e.details) }

/-- Embedding of `analyzeDetoxFailure` (src/acceptance/checker.ts). -/
def analyzeDetoxFailure (criterion : AcceptanceCriterion) (result : RunnerResult)
    (startMs nowMs : Nat) (nowIso : Str) : CriterionResult :=
  let errorMessage := errorMessageOf result
  let lowerError := toLowerStr errorMessage
  let isElementNotFound :=
    elementNotFoundPatterns.any (fun p => containsSub lowerError p)
  if isElementNotFound then
    { criterion := criterion
      status := .blocked
      message := S "Element not found - missing testID or accessibility label"
      evidence := some (failureEvidence result)
      missingRequirements := some (generateMissingRequirements criterion errorMessage)
      elapsedMs := nowMs - startMs
      timestamp := nowIso }
  else if containsSub lowerError (S "timeout") || containsSub lowerError (S "timed out") then
    { criterion := criterion
      status := .fail
      message := S "Timeout waiting for element: " ++ errorMessage
      evidence := some (failureEvidence result)
      elapsedMs := nowMs - startMs
      timestamp := nowIso }
  else if containsSub lowerError (S "expect") || containsSub lowerError (S "assertion") ||
      containsSub lowerError (S "expected") then
    { criterion := criterion
      status := .fail
      message := S "Assertion failed: " ++ errorMessage
      evidence := some (failureEvidence result)
      elapsedMs := nowMs - startMs
      timestamp := nowIso }
  else
    { criterion := criterion
      status := .fail
      message := errorMessage
      evidence := some (failureEvidence result)
      elapsedMs := nowMs - startMs
      timestamp := nowIso }

/-- Embedding of `analyzeStepFailure` (src/acceptance/checker.ts): only three
element-not-found patterns, and no timeout/assertion subdivision. -/
def analyzeStepFailure (step : FlowStep) (result : RunnerResult)
    (startMs nowMs : Nat) : FlowStepResult :=
  let errorMessage := errorMessageOf result
  let lowerError := toLowerStr errorMessage
  let isElementNotFound :=
    containsSub lowerError (S "cannot find") ||
    containsSub lowerError (S "element not found") ||
    containsSub lowerError (S "no matching element")
  if isElementNotFound then
    let suggestedTestId := inferTestId step.description
    { step := step
      status := .blocked
      message := S "Element not found - missing testID"
      evidence := some (failureEvidence result)
      missingRequirements := some
        [{ type := .testID
           elementDescription := step.description
           suggestedValue := suggestedTestId
           reason := S "Add testID=\"" ++ suggestedTestId ++ S "\" for step: \"" ++
             step.description ++ S "\""
           criterionId := S "flow-step-" ++ decRepr step.stepNumber }]
      elapsedMs := nowMs - startMs }
  else
    { step := step
      status := .fail
      message := errorMessage
      evidence := some (failureEvidence result)
      elapsedMs := nowMs - startMs }

/-- C1: on an unsuccessful executor result, `analyzeDetoxFailure` classifies
by an ordered match on the lowercased error message: an element-not-found
phrase gives status `blocked` with `generateMissingRequirements` attached;
else a timeout phrase gives `fail` prefixed "Timeout waiting for element";
else an assertion phrase gives `fail` prefixed "Assertion failed"; else `fail`
with the raw message. -/
theorem analyzeDetoxFailure_ordered_classification (criterion : AcceptanceCriterion)
    (result : RunnerResult) (startMs nowMs : Nat) (nowIso : Str) :
    ((analyzeDetoxFailure criterion result startMs nowMs nowIso).status = .blocked ↔
      elementNotFoundPatterns.any
        (fun p => containsSub (toLowerStr (errorMessageOf result)) p) = true) ∧
    (elementNotFoundPatterns.any
        (fun p => containsSub (toLowerStr (errorMessageOf result)) p) = true →
      (analyzeDetoxFailure criterion result startMs nowMs nowIso).missingRequirements =
        some (generateMissingRequirements criterion (errorMessageOf result))) ∧
    (elementNotFoundPatterns.any
        (fun p => containsSub (toLowerStr (errorMessageOf result)) p) = false →
      (containsSub (toLowerStr (errorMessageOf result)) (S "timeout") ||
        containsSub (toLowerStr (errorMessageOf result)) (S "timed out")) = true →
      (analyzeDetoxFailure criterion result startMs nowMs nowIso).status = .fail ∧
      (analyzeDetoxFailure criterion result startMs nowMs nowIso).message =
        S "Timeout waiting for element: " ++ errorMessageOf result) ∧
    (elementNotFoundPatterns.any
        (fun p => containsSub (toLowerStr (errorMessageOf result)) p) = false →
      (containsSub (toLowerStr (errorMessageOf result)) (S "timeout") ||
        containsSub (toLowerStr (errorMessageOf result)) (S "timed out")) = false →
      (containsSub (toLowerStr (errorMessageOf result)) (S "expect") ||
        containsSub (toLowerStr (errorMessageOf result)) (S "assertion") ||
        containsSub (toLowerStr (errorMessageOf result)) (S "expected")) = true →
      (analyzeDetoxFailure criterion result startMs nowMs nowIso).status = .fail ∧
      (analyzeDetoxFailure criterion result startMs nowMs nowIso).message =
        S "Assertion failed: " ++ errorMessageOf result) ∧
    (elementNotFoundPatterns.any
        (fun p => containsSub (toLowerStr (errorMessageOf result)) p) = false →
      (containsSub (toLowerStr (errorMessageOf result)) (S "timeout") ||
        containsSub (toLowerStr (errorMessageOf result)) (S "timed out")) = false →
      (containsSub (toLowerStr (errorMessageOf result)) (S "expect") ||
        containsSub (toLowerStr (errorMessageOf result)) (S "assertion") ||
        containsSub (toLowerStr (errorMessageOf result)) (S "expected")) = false →
      (analyzeDetoxFailure criterion result startMs nowMs nowIso).status = .fail ∧
      (analyzeDetoxFailure criterion result startMs nowMs nowIso).message =
        errorMessageOf result) := by
  by_cases hE : elementNotFoundPatterns.any
      (fun p => containsSub (toLowerStr (errorMessageOf result)) p) = true
  · have hst : (analyzeDetoxFailure criterion result startMs nowMs nowIso).status = .blocked := by
      unfold analyzeDetoxFailure
      simp only []
      rw [if_pos hE]
    have hmr : (analyzeDetoxFailure criterion result startMs nowMs nowIso).missingRequirements =
        some (generateMissingRequirements criterion (errorMessageOf result)) := by
      unfold analyzeDetoxFailure
      simp only []
      rw [if_pos hE]
    refine ⟨⟨fun _ => hE, fun _ => hst⟩, fun _ => hmr, ?_, ?_, ?_⟩ <;>
      (intro h; rw [h] at hE; exact Bool.noConfusion hE)
  · rw [Bool.not_eq_true] at hE
    have hEneg : ¬(elementNotFoundPatterns.any
        (fun p => containsSub (toLowerStr (errorMessageOf result)) p) = true) := by
      rw [hE]; exact fun h => Bool.noConfusion h
    by_cases hT : (containsSub (toLowerStr (errorMessageOf result)) (S "timeout") ||
        containsSub (toLowerStr (errorMessageOf result)) (S "timed out")) = true
    · have hst : (analyzeDetoxFailure criterion result startMs nowMs nowIso).status = .fail := by
        unfold analyzeDetoxFailure
        simp only []
        rw [if_neg hEneg, if_pos hT]
      have hms : (analyzeDetoxFailure criterion result startMs nowMs nowIso).message =
          S "Timeout waiting for element: " ++ errorMessageOf result := by
        unfold analyzeDetoxFailure
        simp only []
        rw [if_neg hEneg, if_pos hT]
      refine ⟨⟨?_, ?_⟩, ?_, fun _ _ => ⟨hst, hms⟩, ?_, ?_⟩
      · intro h; rw [hst] at h; exact absurd h (by decide)
      · intro h; rw [h] at hE; exact Bool.noConfusion hE
      · intro h; rw [h] at hE; exact Bool.noConfusion hE
      · intro _ h; rw [h] at hT; exact Bool.noConfusion hT
      · intro _ h; rw [h] at hT; exact Bool.noConfusion hT
    · rw [Bool.not_eq_true] at hT
      have hTneg : ¬(containsSub (toLowerStr (errorMessageOf result)) (S "timeout") ||
          containsSub (toLowerStr (errorMessageOf result)) (S "timed out")) = true := by
        rw [hT]; exact fun h => Bool.noConfusion h
      by_cases hA : (containsSub (toLowerStr (errorMessageOf result)) (S "expect") ||
          containsSub (toLowerStr (errorMessageOf result)) (S "assertion") ||
          containsSub (toLowerStr (errorMessageOf result)) (S "expected")) = true
      · have hst : (analyzeDetoxFailure criterion result startMs nowMs nowIso).status = .fail := by
          unfold analyzeDetoxFailure
          simp only []
          rw [if_neg hEneg, if_neg hTneg, if_pos hA]
        have hms : (analyzeDetoxFailure criterion result startMs nowMs nowIso).message =
            S "Assertion failed: " ++ errorMessageOf result := by
          unfold analyzeDetoxFailure
          simp only []
          rw [if_neg hEneg, if_neg hTneg, if_pos hA]
        refine ⟨⟨?_, ?_⟩, ?_, ?_, fun _ _ _ => ⟨hst, hms⟩, ?_⟩
        · intro h; rw [hst] at h; exact absurd h (by decide)
        · intro h; rw [h] at hE; exact Bool.noConfusion hE
        · intro h; rw [h] at hE; exact Bool.noConfusion hE
        · intro _ h; rw [hT] at h; exact Bool.noConfusion h
        · intro _ _ h; rw [h] at hA; exact Bool.noConfusion hA
      · rw [Bool.not_eq_true] at hA
        have hAneg : ¬(containsSub (toLowerStr (errorMessageOf result)) (S "expect") ||
            containsSub (toLowerStr (errorMessageOf result)) (S "assertion") ||
            containsSub (toLowerStr (errorMessageOf result)) (S "expected")) = true := by
          rw [hA]; exact fun h => Bool.noConfusion h
        have hst : (analyzeDetoxFailure criterion result startMs nowMs nowIso).status = .fail := by
          unfold analyzeDetoxFailure
          simp only []
          rw [if_neg hEneg, if_neg hTneg, if_neg hAneg]
        have hms : (analyzeDetoxFailure criterion result startMs nowMs nowIso).message =
            errorMessageOf result := by
          unfold analyzeDetoxFailure
          simp only []
          rw [if_neg hEneg, if_neg hTneg, if_neg hAneg]
        refine ⟨⟨?_, ?_⟩, ?_, ?_, ?_, fun _ _ _ => ⟨hst, hms⟩⟩
        · intro h; rw [hst] at h; exact absurd h (by decide)
        · intro h; rw [h] at hE; exact Bool.noConfusion hE
        · intro h; rw [h] at hE; exact Bool.noConfusion hE
        · intro _ h; rw [hT] at h; exact Bool.noConfusion h
        · intro _ _ h; rw [hA] at h; exact Bool.noConfusion h

/-- C3 (amended): the flow-step failure analysis uses a smaller
element-not-found list than the criterion-level one: status `blocked` exactly
when the lowercased message contains "cannot find", "element not found" or
"no matching element" (then one testID missing-requirement owned by
`flow-step-<n>` is attached, and the criterion-level analysis is also
`blocked`); every other message yields status `fail` with the raw message (no
timeout/assertion subdivision), and when the message matches none of the
seven criterion-level variants both analyses agree on `fail`. -/
theorem analyzeStepFailure_classification (step : FlowStep) (result : RunnerResult)
    (startMs nowMs : Nat) :
    ((analyzeStepFailure step result startMs nowMs).status = .blocked ↔
      (containsSub (toLowerStr (errorMessageOf result)) (S "cannot find") ||
       containsSub (toLowerStr (errorMessageOf result)) (S "element not found") ||
       containsSub (toLowerStr (errorMessageOf result)) (S "no matching element")) = true) ∧
    ((containsSub (toLowerStr (errorMessageOf result)) (S "cannot find") ||
       containsSub (toLowerStr (errorMessageOf result)) (S "element not found") ||
       containsSub (toLowerStr (errorMessageOf result)) (S "no matching element")) = false →
      (analyzeStepFailure step result startMs nowMs).status = .fail ∧
      (analyzeStepFailure step result startMs nowMs).message = errorMessageOf result) ∧
    ((containsSub (toLowerStr (errorMessageOf result)) (S "cannot find") ||
       containsSub (toLowerStr (errorMessageOf result)) (S "element not found") ||
       containsSub (toLowerStr (errorMessageOf result)) (S "no matching element")) = true →
      ∃ req, (analyzeStepFailure step result startMs nowMs).missingRequirements =
          some [req] ∧
        req.type = .testID ∧
        req.suggestedValue = inferTestId step.description ∧
        req.criterionId = S "flow-step-" ++ decRepr step.stepNumber) ∧
    ((containsSub (toLowerStr (errorMessageOf result)) (S "cannot find") ||
       containsSub (toLowerStr (errorMessageOf result)) (S "element not found") ||
       containsSub (toLowerStr (errorMessageOf result)) (S "no matching element")) = true →
      ∀ (criterion : AcceptanceCriterion) (s2 n2 : Nat) (iso : Str),
        (analyzeDetoxFailure criterion result s2 n2 iso).status = .blocked) ∧
    (elementNotFoundPatterns.any
        (fun p => containsSub (toLowerStr (errorMessageOf result)) p) = false →
      (analyzeStepFailure step result startMs nowMs).status = .fail ∧
      ∀ (criterion : AcceptanceCriterion) (s2 n2 : Nat) (iso : Str),
        (analyzeDetoxFailure criterion result s2 n2 iso).status = .fail) := by
  by_cases h3 : (containsSub (toLowerStr (errorMessageOf result)) (S "cannot find") ||
      containsSub (toLowerStr (errorMessageOf result)) (S "element not found") ||
      containsSub (toLowerStr (errorMessageOf result)) (S "no matching element")) = true
  · have hst : (analyzeStepFailure step result startMs nowMs).status = .blocked := by
      unfold analyzeStepFailure
      simp only []
      rw [if_pos h3]
    have hmr : (analyzeStepFailure step result startMs nowMs).missingRequirements =
        some [{ type := .testID
                elementDescription := step.description
                suggestedValue := inferTestId step.description
                reason := S "Add testID=\"" ++ inferTestId step.description ++
                  S "\" for step: \"" ++ step.description ++ S "\""
                criterionId := S "flow-step-" ++ decRepr step.stepNumber }] := by
      unfold analyzeStepFailure
      simp only []
      rw [if_pos h3]
    have h7 : elementNotFoundPatterns.any
        (fun p => containsSub (toLowerStr (errorMessageOf result)) p) = true := by
      rw [List.any_eq_true]
      rcases Bool.or_eq_true_iff.mp h3 with h | h
      · rcases Bool.or_eq_true_iff.mp h with h | h
        · exact ⟨S "cannot find", by simp [elementNotFoundPatterns], h⟩
        · exact ⟨S "element not found", by simp [elementNotFoundPatterns], h⟩
      · exact ⟨S "no matching element", by simp [elementNotFoundPatterns], h⟩
    refine ⟨⟨fun _ => h3, fun _ => hst⟩, ?_, fun _ => ⟨_, hmr, rfl, rfl, rfl⟩,
      fun _ criterion s2 n2 iso => ?_, ?_⟩
    · intro h; rw [h] at h3; exact Bool.noConfusion h3
    · unfold analyzeDetoxFailure
      simp only []
      rw [if_pos h7]
    · intro h
      rw [h7] at h
      exact Bool.noConfusion h
  · rw [Bool.not_eq_true] at h3
    have h3neg : ¬(containsSub (toLowerStr (errorMessageOf result)) (S "cannot find") ||
        containsSub (toLowerStr (errorMessageOf result)) (S "element not found") ||
        containsSub (toLowerStr (errorMessageOf result)) (S "no matching element")) = true := by
      rw [h3]; exact fun h => Bool.noConfusion h
    have hst : (analyzeStepFailure step result startMs nowMs).status = .fail := by
      unfold analyzeStepFailure
      simp only []
      rw [if_neg h3neg]
    have hms : (analyzeStepFailure step result startMs nowMs).message =
        errorMessageOf result := by
      unfold analyzeStepFailure
      simp only []
      rw [if_neg h3neg]
    refine ⟨⟨?_, ?_⟩, fun _ => ⟨hst, hms⟩, ?_, ?_, ?_⟩
    · intro h; rw [hst] at h; exact absurd h (by decide)
    · intro h; rw [h] at h3; exact Bool.noConfusion h3
    · intro h; rw [h] at h3; exact Bool.noConfusion h3
    · intro h; rw [h] at h3; exact Bool.noConfusion h3
    · intro h7
      refine ⟨hst, ?_⟩
      intro criterion s2 n2 iso
      have h7neg : ¬(elementNotFoundPatterns.any
          (fun p => containsSub (toLowerStr (errorMessageOf result)) p) = true) := by
        rw [h7]; exact fun h => Bool.noConfusion h
      unfold analyzeDetoxFailure
      simp only []
      rw [if_neg h7neg]
      split
      · rfl
      split
      · rfl
      · rfl

/-- Concrete tap step used by the C3/C4 data. -/
def sampleStep : FlowStep :=
  { stepNumber := 1
    description := S "Tap \"Continue\""
    action := some (S "tap")
    selector := some { selBy := .text, value := S "Continue", confidence := 7 / 10 }
    expectedResult := none
    lineNumber := 10 }

/-- An executor failure whose message matches only the criterion-level
element-not-found list ("unable to find"), not the step-level one. -/
def unableResult : RunnerResult :=
  { success := false
    error := some { code := S "DETOX_TEST_FAILED"
                    message := S "Unable to find element" } }

/-- Counterexample for C3 as frozen: on the message "Unable to find element"
the step-level analysis returns `fail` while the criterion-level analysis of
the same message returns `blocked`, so the two analyses do not assign the
same status. -/
theorem step_vs_criterion_failure_status_counterexample :
    (analyzeStepFailure sampleStep unableResult 0 0).status = .fail ∧
    (analyzeDetoxFailure sampleCriterion unableResult 0 0 (S "t")).status = .blocked ∧
    ¬((analyzeStepFailure sampleStep unableResult 0 0).status =
      (analyzeDetoxFailure sampleCriterion unableResult 0 0 (S "t")).status) := by
  refine ⟨by decide, by decide, by decide⟩

/-- JS `opt || default` for optional strings (empty string is falsy). -/
def orDefault (o : Option Str) (d : Str) : Str :=
  match o with
  | some s => if s.isEmpty then d else s
  | none => d

/-- Embedding of `captureSuccessEvidence`: the screenshot call is wrapped in
its own try/catch that returns `undefined`, so this helper never throws. -/
def captureSuccessEvidence (shotB : Str → Except Str Str) (criterionId : Str) :
    Option CheckEvidence :=
  match shotB (S "pass-" ++ criterionId) with
  | .ok path => some { screenshots := [path] }
  | .error _ => none

/-- Embedding of `executeVisualCheck`: the whole body is a try/catch whose
handler returns an `error` result, so the function always resolves. -/
def executeVisualCheckE (criterion : AcceptanceCriterion) (mappedCheck : MappedCheck)
    (startMs : Nat) (captureEvidence : Bool) (shotB : Str → Except Str Str)
    (nowMs : Nat) (nowIso : Str) : Except Str CriterionResult :=
  match shotB (S "visual-" ++ criterion.id) with
  | .error e =>
    .ok { criterion := criterion
          status := .error
          message := e
          elapsedMs := nowMs - startMs
          timestamp := nowIso }
  | .ok path =>
    match mappedCheck.visualConfig.bind (fun vc => vc.colorExtraction) with
    | some ce =>
      .ok { criterion := criterion
            status := .skip
            message := S "Color check requires manual verification. Target color: " ++
              ce.targetColor
            evidence := some { screenshots := [path], expectedValue := some ce.targetColor }
            elapsedMs := nowMs - startMs
            timestamp := nowIso }
    | none =>
      .ok { criterion := criterion
            status := .skip
            message := S "Visual check requires baseline comparison or manual verification"
            evidence := if captureEvidence then some { screenshots := [path] } else none
            elapsedMs := nowMs - startMs
            timestamp := nowIso }

/-- Embedding of `executeDetoxCheck`: the executor call is inside a try/catch
whose handler returns an `error` result. -/
def executeDetoxCheckE (criterion : AcceptanceCriterion) (_mappedCheck : MappedCheck)
    (startMs : Nat) (captureEvidence : Bool) (_timeout : Nat)
    (execB : Except Str RunnerResult) (shotB : Str → Except Str Str)
    (nowMs : Nat) (nowIso : Str) : Except Str CriterionResult :=
  match execB with
  | .error e =>
    .ok { criterion := criterion
          status := .error
          message := e
          elapsedMs := nowMs - startMs
          timestamp := nowIso }
  | .ok result =>
    if result.success then
      .ok { criterion := criterion
            status := .pass
            message := S "Check passed"
            evidence := if captureEvidence then
              captureSuccessEvidence shotB criterion.id else none
            elapsedMs := nowMs - startMs
            timestamp := nowIso }
    else .ok (analyzeDetoxFailure criterion result startMs nowMs nowIso)

/-- Embedding of `executeCriterionCheck`: route the mapped check to manual
skip, the visual path, the detox path, or the final skip. -/
def executeCriterionCheckE (criterion : AcceptanceCriterion)
    (captureEvidence : Bool) (timeout : Nat) (execB : Except Str RunnerResult)
    (shotB : Str → Except Str Str) (startMs nowMs : Nat) (nowIso : Str) :
    Except Str CriterionResult :=
  let mappedCheck := mapCriterionToCheck criterion
  if mappedCheck.type = .manual then
    .ok { criterion := criterion
          status := .skip
          message := orDefault mappedCheck.manualReason (S "Requires manual verification")
          elapsedMs := nowMs - startMs
          timestamp := nowIso }
  else if mappedCheck.type = .visual ∨ mappedCheck.type = .screenshot_analysis then
    executeVisualCheckE criterion mappedCheck startMs captureEvidence shotB nowMs nowIso
  else if mappedCheck.type = .detox ∧ optStrTruthy mappedCheck.detoxSnippet = true then
    executeDetoxCheckE criterion mappedCheck startMs captureEvidence timeout execB
      shotB nowMs nowIso
  else
    .ok { criterion := criterion
          status := .skip
          message := S "No executable check could be generated"
          elapsedMs := nowMs - startMs
          timestamp := nowIso }

theorem executeVisualCheckE_ok (criterion : AcceptanceCriterion)
    (mappedCheck : MappedCheck) (startMs : Nat) (captureEvidence : Bool)
    (shotB : Str → Except Str Str) (nowMs : Nat) (nowIso : Str) :
    ∃ r, executeVisualCheckE criterion mappedCheck startMs captureEvidence shotB
      nowMs nowIso = .ok r := by
  unfold executeVisualCheckE
  cases hs : shotB (S "visual-" ++ criterion.id) with
  | error e => exact ⟨_, rfl⟩
  | ok path =>
    cases hvc : mappedCheck.visualConfig.bind (fun vc => vc.colorExtraction) with
    | none => exact ⟨_, rfl⟩
    | some ce => exact ⟨_, rfl⟩

theorem executeDetoxCheckE_ok (criterion : AcceptanceCriterion)
    (mappedCheck : MappedCheck) (startMs : Nat) (captureEvidence : Bool)
    (timeout : Nat) (execB : Except Str RunnerResult)
    (shotB : Str → Except Str Str) (nowMs : Nat) (nowIso : Str) :
    ∃ r, executeDetoxCheckE criterion mappedCheck startMs captureEvidence timeout
      execB shotB nowMs nowIso = .ok r := by
  unfold executeDetoxCheckE
  cases he : execB with
  | error e => exact ⟨_, rfl⟩
  | ok result =>
    simp only []
    by_cases hr : result.success = true
    · exact ⟨_, by rw [if_pos hr]⟩
    · exact ⟨_, by rw [if_neg hr]⟩

/-- C9: `executeCriterionCheck` never throws: whatever the executor and
screenshot collaborators do (including raising exceptions), it returns a
`CriterionResult`; a collaborator exception on the detox or visual path
surfaces as a result with status `error` carrying the exception's message. -/
theorem executeCriterionCheck_never_throws (criterion : AcceptanceCriterion)
    (captureEvidence : Bool) (timeout : Nat) (execB : Except Str RunnerResult)
    (shotB : Str → Except Str Str) (startMs nowMs : Nat) (nowIso : Str) :
    (∃ r, executeCriterionCheckE criterion captureEvidence timeout execB shotB
      startMs nowMs nowIso = .ok r) ∧
    (∀ e, execB = .error e →
      (mapCriterionToCheck criterion).type = .detox →
      optStrTruthy (mapCriterionToCheck criterion).detoxSnippet = true →
      ∃ r, executeCriterionCheckE criterion captureEvidence timeout execB shotB
          startMs nowMs nowIso = .ok r ∧ r.status = .error ∧ r.message = e) ∧
    (∀ e, shotB (S "visual-" ++ criterion.id) = .error e →
      ((mapCriterionToCheck criterion).type = .visual ∨
        (mapCriterionToCheck criterion).type = .screenshot_analysis) →
      ∃ r, executeCriterionCheckE criterion captureEvidence timeout execB shotB
          startMs nowMs nowIso = .ok r ∧ r.status = .error ∧ r.message = e) := by
  refine ⟨?_, ?_, ?_⟩
  · unfold executeCriterionCheckE
    simp only []
    split
    · exact ⟨_, rfl⟩
    split
    · exact executeVisualCheckE_ok criterion _ startMs captureEvidence shotB nowMs nowIso
    split
    · exact executeDetoxCheckE_ok criterion _ startMs captureEvidence timeout execB
        shotB nowMs nowIso
    · exact ⟨_, rfl⟩
  · intro e hexec hty hsnip
    have h1 : ¬((mapCriterionToCheck criterion).type = .manual) := by
      rw [hty]; decide
    have h2 : ¬((mapCriterionToCheck criterion).type = .visual ∨
        (mapCriterionToCheck criterion).type = .screenshot_analysis) := by
      rw [hty]; decide
    have heq : executeCriterionCheckE criterion captureEvidence timeout execB shotB
        startMs nowMs nowIso =
        executeDetoxCheckE criterion (mapCriterionToCheck criterion) startMs
          captureEvidence timeout execB shotB nowMs nowIso := by
      unfold executeCriterionCheckE
      simp only []
      rw [if_neg h1, if_neg h2, if_pos ⟨hty, hsnip⟩]
    rw [heq]
    unfold executeDetoxCheckE
    rw [hexec]
    exact ⟨_, rfl, rfl, rfl⟩
  · intro e hshot hvis
    have h1 : ¬((mapCriterionToCheck criterion).type = .manual) := by
      rcases hvis with h | h <;> rw [h] <;> decide
    have heq : executeCriterionCheckE criterion captureEvidence timeout execB shotB
        startMs nowMs nowIso =
        executeVisualCheckE criterion (mapCriterionToCheck criterion) startMs
          captureEvidence shotB nowMs nowIso := by
      unfold executeCriterionCheckE
      simp only []
      rw [if_neg h1, if_pos hvis]
    rw [heq]
    unfold executeVisualCheckE
    rw [hshot]
    exact ⟨_, rfl, rfl, rfl⟩

/-! ## Flow-step mapping and the flow runner -/

/-- Quote characters of the text-extraction regexes. -/
def isQuote (c : Char) : Bool := c = '"' || c = '\x27'

/-- One-position matcher for a quoted literal: a quote, one or more non-quote
characters, then a quote (either kind). -/
def quoteMatchAt (u : Str) : Option Str :=
  match u with
  | [] => none
  | c :: rest =>
    if isQuote c then
      let t := rest.takeWhile (fun x => !isQuote x)
      if t.isEmpty then none
      else
        match rest.drop t.length with
        | c2 :: _ => if isQuote c2 then some t else none
        | [] => none
    else none

/-- Leftmost-match search over all suffixes (regex `String.match`). -/
def scanFor (f : Str → Option α) : Str → Option α
  | [] => none
  | c :: rest =>
    match f (c :: rest) with
    | some r => some r
    | none => scanFor f rest

/-- One-position matcher for the wait-duration pattern: a digit run, optional
whitespace, then a unit from `s | seconds? | ms | milliseconds?` (tried in
that order, case-insensitively); returns the value and the millisecond
multiplier. -/
def timeMatchAt (u : Str) : Option (Nat × Nat) :=
  let d := u.takeWhile Char.isDigit
  if d.isEmpty then none
  else
    let r := toLowerStr ((u.drop d.length).dropWhile isWs)
    if startsW (S "s") r then some (decVal d, 1000)
    else if startsW (S "ms") r then some (decVal d, 1)
    else if startsW (S "millisecond") r then some (decVal d, 1)
    else none

/-- JS `\w` word character. -/
def isWordCh (c : Char) : Bool := c.isAlphanum || c = '_'

/-- One-position matcher for a word-boundary-delimited direction keyword
(`up | down | left | right`, alternatives in source order). -/
def dirWordAt (prevOk : Bool) (u : Str) : Option Direction :=
  if !prevOk then none
  else
    let lu := toLowerStr u
    let check : Str → Direction → Option Direction := fun w d =>
      if startsW w lu then
        match u.drop w.length with
        | [] => some d
        | c :: _ => if isWordCh c then none else some d
      else none
    match check (S "up") .up with
    | some d => some d
    | none =>
      match check (S "down") .down with
      | some d => some d
      | none =>
        match check (S "left") .left with
        | some d => some d
        | none => check (S "right") .right

/-- Leftmost direction-keyword search threading the previous character for
the leading word boundary. -/
def findDirAux : Option Char → Str → Option Direction
  | _, [] => none
  | prev, c :: rest =>
    let prevOk := match prev with | none => true | some p => !isWordCh p
    match dirWordAt prevOk (c :: rest) with
    | some d => some d
    | none => findDirAux (some c) rest

/-- The `\b(up|down|left|right)\b` search of the swipe mapping. -/
def findDir (s : Str) : Option Direction := findDirAux none s

/-- Embedding of `mapFlowStep` (src/acceptance/mapper.ts). -/
def mapFlowStep (step : FlowStep) : MappedFlowStep :=
  let detoxSelector := step.selector.map toDetoxSelector
  let detoxSnippet : Option Str :=
    match step.action with
    | none => none
    | some a =>
      if a = S "tap" then
        detoxSelector.map (fun ds =>
          S "await element(" ++ selectorToExpression ds ++ S ").tap();")
      else if a = S "type" then
        match detoxSelector with
        | some ds =>
          match scanFor quoteMatchAt step.description with
          | some txt =>
            some (S "const input = element(" ++ selectorToExpression ds ++ S ");\n" ++
              S "      await input.tap();\n" ++
              S "      await input.clearText();\n" ++
              S "      await input.typeText(" ++ jsonQuote txt ++ S ");")
          | none => none
        | none => none
      else if a = S "verify" then
        detoxSelector.map (fun ds =>
          S "await expect(element(" ++ selectorToExpression ds ++ S ")).toBeVisible();")
      else if a = S "wait" then
        match scanFor timeMatchAt step.description with
        | some tu => some (S "await new Promise(r => setTimeout(r, " ++
            decRepr (tu.1 * tu.2) ++ S "));")
        | none => none
      else if a = S "swipe" then
        detoxSelector.map (fun ds =>
          S "await element(" ++ selectorToExpression ds ++ S ").swipe(\x27" ++
            dirStr ((findDir step.description).getD .up) ++ S "\x27);")
      else none
  { step := step
    detoxSnippet := detoxSnippet
    action := orDefault step.action (S "unknown")
    selector := detoxSelector
    expectedResult := step.expectedResult }

/-- The flow name sanitized for screenshot file names. -/
def safeFlowName (flowName : Str) : Str :=
  toLowerStr (flowName.map (fun c => if c.isAlphanum then c else '-'))

/-- Embedding of `captureStepEvidence`: inner try/catch, never throws. -/
def captureStepEvidence (shot : Except Str Str) : Option CheckEvidence :=
  match shot with
  | .ok path => some { screenshots := [path] }
  | .error _ => none

/-- Mutable loop state of `executeTestFlow`. -/
structure FlowLoopState where
  stepResults : List FlowStepResult := []
  allMissingRequirements : List MissingRequirement := []
  completedSteps : Nat := 0
  blocked : Bool := false
  blockedReason : Option Str := none
deriving DecidableEq

/-- The `for (const step of flow.steps)` loop of `executeTestFlow`.  The i-th
loop iteration consults the executor oracle at index `i`; the screenshot
oracle is keyed the same way.  The wall clock is constant (no claim depends
on elapsed times). -/
def runFlowSteps (flowName : Str) (screenshotEachStep stopOnFailure : Bool)
    (execB : Nat → Except Str RunnerResult) (shotB : Nat → Str → Except Str Str) :
    List FlowStep → Nat → FlowLoopState → FlowLoopState
  | [], _, st => st
  | step :: rest, i, st =>
    let mappedStep := mapFlowStep step
    if optStrTruthy mappedStep.detoxSnippet = false then
      let result : FlowStepResult :=
        { step := step
          status := .skip
          message := S "Could not map action \"" ++
            orDefault step.action step.description ++ S "\" to executable step"
          elapsedMs := 0 }
      let st' := { st with stepResults := st.stepResults ++ [result] }
      if stopOnFailure then
        { st' with
            blocked := true
            blockedReason := some (S "Step " ++ decRepr step.stepNumber ++ S ": " ++
              result.message) }
      else runFlowSteps flowName screenshotEachStep stopOnFailure execB shotB rest
        (i + 1) st'
    else
      match execB i with
      | .error e =>
        let stepResult : FlowStepResult :=
          { step := step, status := .error, message := e, elapsedMs := 0 }
        let st' := { st with stepResults := st.stepResults ++ [stepResult] }
        if stopOnFailure then
          { st' with blockedReason := some (S "Step " ++ decRepr step.stepNumber ++
              S ": " ++ e) }
        else runFlowSteps flowName screenshotEachStep stopOnFailure execB shotB rest
          (i + 1) st'
      | .ok detoxResult =>
        if detoxResult.success then
          let evidence := if screenshotEachStep then
              captureStepEvidence (shotB i (S "flow-" ++ safeFlowName flowName ++
                S "-step" ++ decRepr step.stepNumber))
            else none
          let st' := { st with
            completedSteps := st.completedSteps + 1
            stepResults := st.stepResults ++
              [{ step := step
                 status := .pass
                 message := S "Step completed successfully"
                 evidence := evidence
                 elapsedMs := 0 }] }
          runFlowSteps flowName screenshotEachStep stopOnFailure execB shotB rest
            (i + 1) st'
        else
          let stepResult := analyzeStepFailure step detoxResult 0 0
          let st' := { st with
            stepResults := st.stepResults ++ [stepResult]
            allMissingRequirements := st.allMissingRequirements ++
              stepResult.missingRequirements.getD [] }
          if stepResult.status = .blocked || stopOnFailure then
            { st' with
                blocked := stepResult.status = .blocked
                blockedReason := some (S "Step " ++ decRepr step.stepNumber ++
                  S ": " ++ stepResult.message) }
          else runFlowSteps flowName screenshotEachStep stopOnFailure execB shotB rest
            (i + 1) st'

/-- Embedding of `executeTestFlow` (src/acceptance/checker.ts). -/
def executeTestFlow (flow : TestFlow) (screenshotEachStep stopOnFailure : Bool)
    (execB : Nat → Except Str RunnerResult) (shotB : Nat → Str → Except Str Str)
    (nowIso : Str) : FlowResult :=
  let st := runFlowSteps flow.name screenshotEachStep stopOnFailure execB shotB
    flow.steps 0 {}
  { flow := flow
    success := decide (st.completedSteps = flow.steps.length)
    completedSteps := st.completedSteps
    totalSteps := flow.steps.length
    stepResults := st.stepResults
    blockedReason := if st.blocked then st.blockedReason else none
    missingRequirements := if st.allMissingRequirements.isEmpty then none
      else some st.allMissingRequirements
    elapsedMs := 0
    timestamp := nowIso }

/-- The step-failure analysis returns a result for the analyzed step. -/
theorem analyzeStepFailure_step_eq (step : FlowStep) (result : RunnerResult)
    (a b : Nat) : (analyzeStepFailure step result a b).step = step := by
  unfold analyzeStepFailure
  simp only []
  split <;> rfl

/-- Each loop run appends results for a prefix of the remaining steps, in
order: the appended results' steps are exactly `steps.take r.length`. -/
theorem runFlowSteps_ext (flowName : Str) (scrE stopF : Bool)
    (execB : Nat → Except Str RunnerResult) (shotB : Nat → Str → Except Str Str) :
    ∀ (steps : List FlowStep) (i : Nat) (st : FlowLoopState),
      ∃ r : List FlowStepResult,
        (runFlowSteps flowName scrE stopF execB shotB steps i st).stepResults
          = st.stepResults ++ r ∧
        r.map (fun sr => sr.step) = steps.take r.length ∧
        r.length ≤ steps.length := by
  intro steps
  induction steps with
  | nil =>
    intro i st
    exact ⟨[], by simp [runFlowSteps], rfl, Nat.le_refl 0⟩
  | cons step rest ih =>
    intro i st
    simp only [runFlowSteps]
    split
    · split
      · exact ⟨[_], rfl, rfl, by simp⟩
      · obtain ⟨r', h1, h2, h3⟩ := ih (i + 1) _
        refine ⟨({ step := step
                   status := .skip
                   message := S "Could not map action \"" ++
                     orDefault step.action step.description ++
                     S "\" to executable step"
                   elapsedMs := 0 } : FlowStepResult) :: r',
            ?_, ?_, Nat.succ_le_succ h3⟩
        · rw [h1]; simp
        · simp [h2]
    · split
      · rename_i e heq
        split
        · exact ⟨[_], rfl, rfl, by simp⟩
        · obtain ⟨r', h1, h2, h3⟩ := ih (i + 1) _
          refine ⟨({ step := step, status := .error, message := e,
                     elapsedMs := 0 } : FlowStepResult) :: r',
              ?_, ?_, Nat.succ_le_succ h3⟩
          · rw [h1]; simp
          · simp [h2]
      · rename_i detoxResult heq
        split
        · obtain ⟨r', h1, h2, h3⟩ := ih (i + 1) _
          refine ⟨({ step := step
                     status := .pass
                     message := S "Step completed successfully"
                     evidence := if scrE then
                         captureStepEvidence (shotB i (S "flow-" ++
                           safeFlowName flowName ++ S "-step" ++
                           decRepr step.stepNumber))
                       else none
                     elapsedMs := 0 } : FlowStepResult) :: r',
              ?_, ?_, Nat.succ_le_succ h3⟩
          · rw [h1]; simp
          · simp [h2]
        · split
          · exact ⟨[_], rfl, by simp [analyzeStepFailure_step_eq], by simp⟩
          · obtain ⟨r', h1, h2, h3⟩ := ih (i + 1) _
            refine ⟨analyzeStepFailure step detoxResult 0 0 :: r',
                ?_, ?_, Nat.succ_le_succ h3⟩
            · rw [h1]; simp
            · simp [h2, analyzeStepFailure_step_eq]

/-- Second step of the scenario flow. -/
def scenarioStep2 : FlowStep :=
  { stepNumber := 2
    description := S "Verify \"Welcome\" is shown"
    action := some (S "verify")
    selector := some { selBy := .text, value := S "Welcome", confidence := 7 / 10 }
    expectedResult := some (S "\"Welcome\" is shown")
    lineNumber := 11 }

/-- The two-step scenario flow. -/
def scenarioFlow : TestFlow :=
  { name := S "Flow 1: Login"
    steps := [sampleStep, scenarioStep2]
    lineNumber := 9 }

/-- Executor behaviour for the scenario: every call resolves unsuccessfully
with an element-not-found-style message. -/
def scenarioExec : Nat → Except Str RunnerResult :=
  fun _ => .ok { success := false
                 error := some { code := S "DETOX_TEST_FAILED"
                                 message := S "Test failed: element not found in hierarchy" } }

/-- Screenshot behaviour for the scenario: every call succeeds. -/
def scenarioShot : Nat → Str → Except Str Str :=
  fun _ p => .ok (S "/artifacts/" ++ p ++ S ".png")

/-- The scenario run with the source defaults
`screenshotEachStep = true, stopOnFailure = true`. -/
def scenarioResult : FlowResult :=
  executeTestFlow scenarioFlow true true scenarioExec scenarioShot
    (S "2025-01-01T00:00:00.000Z")

/-- C4: `executeTestFlow` reports success exactly when every step completed
(`completedSteps = steps.length`); `totalSteps` is the number of steps; the
recorded step results always form an in-order prefix of the flow's steps, so
after an abort none of the later steps appears in `stepResults`; and on the
two-step scenario (tap then verify) whose first step fails with an
element-not-found-style executor message under the default options, the sole
recorded result is step 1 with status `blocked` and exactly one missing
requirement whose owning id is `flow-step-1`, `completedSteps` is 0,
`success` is false, and step 2 is absent. -/
theorem executeTestFlow_success_iff_and_abort_prefix
    (flow : TestFlow) (scrE stopF : Bool)
    (execB : Nat → Except Str RunnerResult) (shotB : Nat → Str → Except Str Str)
    (nowIso : Str) :
    ((executeTestFlow flow scrE stopF execB shotB nowIso).success = true ↔
      (executeTestFlow flow scrE stopF execB shotB nowIso).completedSteps =
        flow.steps.length) ∧
    (executeTestFlow flow scrE stopF execB shotB nowIso).totalSteps =
      flow.steps.length ∧
    (executeTestFlow flow scrE stopF execB shotB nowIso).stepResults.map
        (fun sr => sr.step) =
      flow.steps.take
        (executeTestFlow flow scrE stopF execB shotB nowIso).stepResults.length ∧
    (executeTestFlow flow scrE stopF execB shotB nowIso).stepResults.length ≤
      flow.steps.length ∧
    scenarioResult.completedSteps = 0 ∧
    scenarioResult.success = false ∧
    scenarioResult.stepResults.map (fun sr => sr.status) =
      [CriterionStatus.blocked] ∧
    scenarioResult.stepResults.map (fun sr => sr.step) = [sampleStep] ∧
    scenarioResult.stepResults.map (fun sr =>
        (sr.missingRequirements.getD []).map (fun m => m.criterionId)) =
      [[S "flow-step-1"]] := by
  obtain ⟨r, h1, h2, h3⟩ :=
    runFlowSteps_ext flow.name scrE stopF execB shotB flow.steps 0 {}
  have hsr : (executeTestFlow flow scrE stopF execB shotB nowIso).stepResults = r :=
    h1.trans rfl
  refine ⟨?_, rfl, ?_, ?_, ?_, ?_, ?_, ?_, ?_⟩
  · exact decide_eq_true_iff
  · rw [hsr]; exact h2
  · rw [hsr]; exact h3
  · decide
  · decide
  · decide
  · rfl
  · decide

/-! ## Markdown section extraction (extractor.ts) -/

/-- `(.+)$` anchored at the start: nonempty and free of line terminators, to
the end of the string. -/
def dotPlusEnd (g : Str) : Bool := !g.isEmpty && g.all isDot

/-- Backtracking search for the body group of `\s*(.+)$` / `\s+(.+)$`: try
splitting off `j` whitespace characters, largest first, down to zero. -/
def backScanAll (r : Str) : Nat → Option Str
  | 0 => if dotPlusEnd r then some r else none
  | j + 1 =>
    let g := r.drop (j + 1)
    if dotPlusEnd g then some g else backScanAll r j

/-- As `backScanAll` but at least one whitespace character must stay
consumed (`\s+`). -/
def backScanPos (r : Str) : Nat → Option Str
  | 0 => none
  | j + 1 =>
    let g := r.drop (j + 1)
    if dotPlusEnd g then some g else backScanPos r j

/-- `\s*(.+)$` anchored at the start of `r`; the greedy `\s*` starts from the
whole leading whitespace run and backtracks. -/
def wsStarBody (r : Str) : Option Str := backScanAll r (r.takeWhile isWs).length

/-- `\s+(.+)$` anchored at the start of `r`. -/
def wsPlusBody (r : Str) : Option Str :=
  match (r.takeWhile isWs).length with
  | 0 => none
  | n + 1 => backScanPos r (n + 1)

/-- `^##\s+(.+)$`: the captured body of an H2 header line. -/
def h2Body? (line : Str) : Option Str :=
  match line with
  | '#' :: '#' :: r => wsPlusBody r
  | _ => none

/-- `^###\s+(.+)$`: the captured body of an H3 header line. -/
def h3Body? (line : Str) : Option Str :=
  match line with
  | '#' :: '#' :: '#' :: r => wsPlusBody r
  | _ => none

/-- `/^Flow\s+\d+/i.test`: the name opens with "flow" (case-insensitively),
a nonempty whitespace run, then a digit. -/
def flowHeadTest (s : Str) : Bool :=
  startsW (S "flow") (toLowerStr s) &&
    (let r := s.drop 4
     let w := r.takeWhile isWs
     !w.isEmpty &&
       (match r.drop w.length with
        | c :: _ => c.isDigit
        | [] => false))

/-- `^-\s*\[(.)\]\s*(.+)$`: the checkbox mark character and the captured
description body. -/
def checkboxBody? (line : Str) : Option (Char × Str) :=
  match line with
  | '-' :: rest =>
    match rest.dropWhile isWs with
    | '[' :: c :: ']' :: tail =>
      if isDot c then (wsStarBody tail).map (fun g => (c, g)) else none
    | _ => none
  | _ => none

/-- The meta section names skipped by `extractSections`. -/
def metaSections : List Str :=
  [S "overview", S "prerequisites", S "test flows", S "test flows summary",
   S "sign-off"]

/-- A section being built.  The JS code aliases `currentSubsection` with the
last element of `currentSection.subsections`; here `curSub` is that last
element, kept apart from the already finished `doneSubs`. -/
structure SecInProgress where
  name : Str
  lineNumber : Nat
  doneSubs : List CriteriaSubsection
  curSub : Option CriteriaSubsection
  criteria : List AcceptanceCriterion
deriving DecidableEq

/-- Assemble the finished `CriteriaSection` from a section in progress. -/
def closeSec (sp : SecInProgress) : CriteriaSection :=
  { name := sp.name
    subsections := sp.doneSubs ++ sp.curSub.toList
    criteria := sp.criteria
    lineNumber := sp.lineNumber }

/-- The `for` loop of `extractSections` (src/acceptance/extractor.ts).  The
imported collaborators `classifyCriterionType` and `extractCheckConfig` are
oracle parameters; `criterionIndex` is the document-global counter `idx`. -/
def extractLoop (classify : Str → CriterionType) (configOf : Str → CheckConfig)
    (inferSelectors classifyTypes : Bool) :
    List Str → Nat → List CriteriaSection → Option SecInProgress → Nat →
      List CriteriaSection
  | [], _, sections, cur, _ => sections ++ (cur.map closeSec).toList
  | line :: rest, i, sections, cur, idx =>
    match h2Body? line with
    | some body =>
      let sectionName := trimStr body
      if metaSections.any (fun m => containsSub (toLowerStr sectionName) m) then
        extractLoop classify configOf inferSelectors classifyTypes rest (i + 1)
          sections none idx
      else
        extractLoop classify configOf inferSelectors classifyTypes rest (i + 1)
          (sections ++ (cur.map closeSec).toList)
          (some { name := sectionName, lineNumber := i + 1, doneSubs := [],
                  curSub := none, criteria := [] }) idx
    | none =>
      match h3Body? line, cur with
      | some body, some sp =>
        let subsectionName := trimStr body
        if flowHeadTest subsectionName then
          extractLoop classify configOf inferSelectors classifyTypes rest (i + 1)
            sections (some sp) idx
        else
          extractLoop classify configOf inferSelectors classifyTypes rest (i + 1)
            sections
            (some { sp with
                doneSubs := sp.doneSubs ++ sp.curSub.toList
                curSub := some { name := subsectionName, criteria := [],
                                 lineNumber := i + 1 } }) idx
      | _, _ =>
        match checkboxBody? line, cur with
        | some cb, some sp =>
          let description := trimStr cb.2
          let idx' := idx + 1
          let sectionSlug := slugify sp.name
          match sp.curSub with
          | some sub =>
            let criterion : AcceptanceCriterion :=
              { id := sectionSlug ++ '-' ::
                  (slugify sub.name ++ '-' :: decRepr idx')
                sectionName := sp.name
                subsection := some sub.name
                description := description
                type := if classifyTypes then classify description else .manual
                config := if inferSelectors then configOf description else {}
                lineNumber := i + 1
                rawLine := line }
            extractLoop classify configOf inferSelectors classifyTypes rest (i + 1)
              sections
              (some { sp with curSub := some { sub with
                  criteria := sub.criteria ++ [criterion] } }) idx'
          | none =>
            let criterion : AcceptanceCriterion :=
              { id := sectionSlug ++ '-' :: decRepr idx'
                sectionName := sp.name
                subsection := none
                description := description
                type := if classifyTypes then classify description else .manual
                config := if inferSelectors then configOf description else {}
                lineNumber := i + 1
                rawLine := line }
            extractLoop classify configOf inferSelectors classifyTypes rest (i + 1)
              sections (some { sp with criteria := sp.criteria ++ [criterion] })
              idx'
        | _, _ =>
          extractLoop classify configOf inferSelectors classifyTypes rest (i + 1)
            sections cur idx

/-- Embedding of `extractSections` (src/acceptance/extractor.ts). -/
def extractSections (lines : List Str) (inferSelectors classifyTypes : Bool)
    (classify : Str → CriterionType) (configOf : Str → CheckConfig) :
    List CriteriaSection :=
  extractLoop classify configOf inferSelectors classifyTypes lines 0 [] none 0

/-- Every criterion of a section list: root criteria, then the subsections'
criteria, section by section. -/
def allCriteriaOf (secs : List CriteriaSection) : List AcceptanceCriterion :=
  secs.flatMap (fun sec =>
    sec.criteria ++ sec.subsections.flatMap (fun sub => sub.criteria))

/-- The ids of every criterion of a section list. -/
def allIds (secs : List CriteriaSection) : List Str :=
  (allCriteriaOf secs).map (fun c => c.id)

/-- The criterion's id is `slug(section)[-slug(subsection)]-k` built from its
own recorded section and subsection names. -/
def idWellFormed (c : AcceptanceCriterion) (k : Nat) : Prop :=
  c.id = match c.subsection with
    | some sub => slugify c.sectionName ++ '-' :: (slugify sub ++ '-' :: decRepr k)
    | none => slugify c.sectionName ++ '-' :: decRepr k

/-- The maximal digit suffix of a string. -/
def tailNum (s : Str) : Str := (s.reverse.takeWhile Char.isDigit).reverse

theorem takeWhile_all_append (p : Char → Bool) (l1 l2 : Str)
    (h1 : ∀ a ∈ l1, p a = true) :
    (l1 ++ l2).takeWhile p = l1 ++ l2.takeWhile p := by
  induction l1 with
  | nil => rfl
  | cons a as ih =>
    have ha : p a = true := h1 a (List.mem_cons_self a as)
    simp only [List.cons_append, List.takeWhile_cons, ha, if_true]
    rw [ih (fun x hx => h1 x (List.mem_cons_of_mem a hx))]

/-- Appending `-k` (a hyphen and the decimal digits of `k`) to any string
makes `k`'s digits the maximal digit suffix. -/
theorem tailNum_of_form (p : Str) (k : Nat) :
    tailNum (p ++ '-' :: decRepr k) = decRepr k := by
  have hstep : (p ++ '-' :: decRepr k).reverse
      = (decRepr k).reverse ++ '-' :: p.reverse := by
    simp [List.reverse_append]
  unfold tailNum
  rw [hstep, takeWhile_all_append _ _ _
    (fun a ha => decRepr_digits k a (List.mem_reverse.mp ha))]
  have hdash : List.takeWhile Char.isDigit ('-' :: p.reverse) = [] := by
    simp [List.takeWhile_cons]
  rw [hdash, List.append_nil, List.reverse_reverse]

/-- Two ids ending in distinct ordinals differ, whatever their prefixes. -/
theorem id_form_ne (p1 p2 : Str) (k1 k2 : Nat) (hk : k1 ≠ k2) :
    p1 ++ '-' :: decRepr k1 ≠ p2 ++ '-' :: decRepr k2 := by
  intro h
  apply hk
  apply decRepr_injective
  have h2 := congrArg tailNum h
  rwa [tailNum_of_form, tailNum_of_form] at h2

/-- A well-formed id is some prefix followed by `-k`. -/
theorem idWellFormed_form {c : AcceptanceCriterion} {k : Nat}
    (h : idWellFormed c k) : ∃ p, c.id = p ++ '-' :: decRepr k := by
  unfold idWellFormed at h
  cases hs : c.subsection with
  | none => rw [hs] at h; exact ⟨slugify c.sectionName, h⟩
  | some sub =>
    rw [hs] at h
    exact ⟨slugify c.sectionName ++ '-' :: slugify sub, by rw [h]; simp⟩

/-- The criteria accumulated so far inside a section in progress. -/
def spCriteria (sp : SecInProgress) : List AcceptanceCriterion :=
  sp.criteria ++ (sp.doneSubs ++ sp.curSub.toList).flatMap (fun sub => sub.criteria)

/-- All criteria of the whole parser state. -/
def stateCriteria (sections : List CriteriaSection) (cur : Option SecInProgress) :
    List AcceptanceCriterion :=
  allCriteriaOf (sections ++ (cur.map closeSec).toList)

theorem allCriteriaOf_append (l1 l2 : List CriteriaSection) :
    allCriteriaOf (l1 ++ l2) = allCriteriaOf l1 ++ allCriteriaOf l2 := by
  simp [allCriteriaOf]

theorem stateCriteria_none (sections : List CriteriaSection) :
    stateCriteria sections none = allCriteriaOf sections := by
  simp [stateCriteria]

theorem stateCriteria_some (sections : List CriteriaSection) (sp : SecInProgress) :
    stateCriteria sections (some sp) = allCriteriaOf sections ++ spCriteria sp := by
  simp [stateCriteria, allCriteriaOf, closeSec, spCriteria]

/-- Parser-state invariant: ids collected so far are distinct and every
collected criterion's id is well formed with ordinal between 1 and `idx`. -/
def ExtInv (sections : List CriteriaSection) (cur : Option SecInProgress)
    (idx : Nat) : Prop :=
  ((stateCriteria sections cur).map (fun c => c.id)).Nodup ∧
  ∀ c ∈ stateCriteria sections cur, ∃ k, 1 ≤ k ∧ k ≤ idx ∧ idWellFormed c k

theorem ExtInv_of_perm {s1 s2 : List CriteriaSection}
    {c1 c2 : Option SecInProgress} {idx : Nat}
    (h : List.Perm (stateCriteria s2 c2) (stateCriteria s1 c1))
    (inv : ExtInv s1 c1 idx) : ExtInv s2 c2 idx := by
  obtain ⟨hn, hb⟩ := inv
  exact ⟨(h.map (fun c => c.id)).symm.nodup hn,
    fun c hc => hb c (h.mem_iff.mp hc)⟩

theorem ExtInv_push {s1 s2 : List CriteriaSection}
    {c1 c2 : Option SecInProgress} {idx : Nat} {c : AcceptanceCriterion}
    (h : List.Perm (stateCriteria s2 c2) (stateCriteria s1 c1 ++ [c]))
    (inv : ExtInv s1 c1 idx) (hwf : idWellFormed c (idx + 1)) :
    ExtInv s2 c2 (idx + 1) := by
  obtain ⟨hn, hb⟩ := inv
  have hnotin : c.id ∉ (stateCriteria s1 c1).map (fun x => x.id) := by
    intro hmem
    obtain ⟨x, hx, hxid⟩ := List.mem_map.mp hmem
    obtain ⟨k, h1, h2, h3⟩ := hb x hx
    obtain ⟨px, hpx⟩ := idWellFormed_form h3
    obtain ⟨pc, hpc⟩ := idWellFormed_form hwf
    exact id_form_ne px pc k (idx + 1) (by omega) (by rw [← hpx, ← hpc, hxid])
  have hnew : ((stateCriteria s1 c1 ++ [c]).map (fun x => x.id)).Nodup := by
    rw [List.map_append]
    simp only [List.map_cons, List.map_nil]
    rw [List.nodup_append]
    exact ⟨hn, List.nodup_singleton _, by
      intro a ha hb2
      rw [List.mem_singleton.mp hb2] at ha
      exact hnotin ha⟩
  constructor
  · exact (h.map (fun x => x.id)).symm.nodup hnew
  · intro x hx
    rcases List.mem_append.mp (h.mem_iff.mp hx) with hx1 | hx2
    · obtain ⟨k, h1, h2, h3⟩ := hb x hx1
      exact ⟨k, h1, Nat.le_succ_of_le h2, h3⟩
    · rw [List.mem_singleton.mp hx2]
      exact ⟨idx + 1, Nat.succ_le_succ (Nat.zero_le idx), Nat.le_refl _, hwf⟩

theorem ExtInv_of_eq {s1 s2 : List CriteriaSection}
    {c1 c2 : Option SecInProgress} {idx : Nat}
    (h : stateCriteria s2 c2 = stateCriteria s1 c1)
    (inv : ExtInv s1 c1 idx) : ExtInv s2 c2 idx := by
  unfold ExtInv at *
  rw [h]
  exact inv

/-- Discarding the section in progress (the meta-header branch) keeps the
invariant. -/
theorem ExtInv_drop {sections : List CriteriaSection}
    {cur : Option SecInProgress} {idx : Nat}
    (inv : ExtInv sections cur idx) : ExtInv sections none idx := by
  cases cur with
  | none => exact inv
  | some sp =>
    obtain ⟨hn, hb⟩ := inv
    rw [stateCriteria_some] at hn hb
    rw [List.map_append] at hn
    constructor
    · rw [stateCriteria_none]
      exact hn.of_append_left
    · intro c hc
      rw [stateCriteria_none] at hc
      exact hb c (List.mem_append_left _ hc)

/-- Opening a fresh section after closing the previous one does not change
the collected criteria. -/
theorem stateCriteria_fresh (sections : List CriteriaSection)
    (cur : Option SecInProgress) (nm : Str) (ln : Nat) :
    stateCriteria (sections ++ (cur.map closeSec).toList)
      (some { name := nm, lineNumber := ln, doneSubs := [], curSub := none,
              criteria := [] })
    = stateCriteria sections cur := by
  rw [stateCriteria_some]
  simp [stateCriteria, spCriteria]

/-- Opening a fresh subsection after closing the previous one does not change
the collected criteria. -/
theorem stateCriteria_newsub (sections : List CriteriaSection)
    (sp : SecInProgress) (nm : Str) (ln : Nat) :
    stateCriteria sections
      (some { sp with
          doneSubs := sp.doneSubs ++ sp.curSub.toList
          curSub := some { name := nm, criteria := [], lineNumber := ln } })
    = stateCriteria sections (some sp) := by
  rw [stateCriteria_some, stateCriteria_some]
  simp [spCriteria]

/-- Appending a criterion to the current subsection appends it at the end of
the collected criteria. -/
theorem spCriteria_push_sub (sp : SecInProgress) (sub : CriteriaSubsection)
    (c : AcceptanceCriterion) (hsub : sp.curSub = some sub) :
    spCriteria { sp with curSub := some { sub with
        criteria := sub.criteria ++ [c] } }
    = spCriteria sp ++ [c] := by
  simp [spCriteria, hsub]

/-- Appending a criterion to the section's root criteria collects, up to
permutation, the same criteria plus the new one. -/
theorem spCriteria_push_root (sp : SecInProgress) (c : AcceptanceCriterion) :
    List.Perm (spCriteria { sp with criteria := sp.criteria ++ [c] })
      (spCriteria sp ++ [c]) := by
  simp only [spCriteria]
  rw [List.append_assoc, List.append_assoc]
  exact List.Perm.append_left _ (List.perm_append_comm)

/-- Soundness of the extraction loop: from an invariant state it produces
sections whose criterion ids are pairwise distinct and well formed. -/
theorem extractLoop_sound (classify : Str → CriterionType)
    (configOf : Str → CheckConfig) (inferSelectors classifyTypes : Bool) :
    ∀ (lines : List Str) (i : Nat) (sections : List CriteriaSection)
      (cur : Option SecInProgress) (idx : Nat),
      ExtInv sections cur idx →
      (allIds (extractLoop classify configOf inferSelectors classifyTypes
          lines i sections cur idx)).Nodup ∧
      ∀ c ∈ allCriteriaOf (extractLoop classify configOf inferSelectors
          classifyTypes lines i sections cur idx),
        ∃ k, 1 ≤ k ∧ idWellFormed c k := by
  intro lines
  induction lines with
  | nil =>
    intro i sections cur idx inv
    obtain ⟨hn, hb⟩ := inv
    simp only [extractLoop]
    refine ⟨hn, fun c hc => ?_⟩
    obtain ⟨k, h1, _, h3⟩ := hb c hc
    exact ⟨k, h1, h3⟩
  | cons line rest ih =>
    intro i sections cur idx inv
    simp only [extractLoop]
    split
    · split
      · exact ih (i + 1) sections none idx (ExtInv_drop inv)
      · exact ih (i + 1) _ _ idx
          (ExtInv_of_eq (stateCriteria_fresh sections cur _ _) inv)
    · split
      · split
        · exact ih (i + 1) sections _ idx inv
        · exact ih (i + 1) sections _ idx
            (ExtInv_of_eq (stateCriteria_newsub sections _ _ _) inv)
      · split
        · split
          · rename_i sub hsub
            refine ih (i + 1) sections _ (idx + 1) ?_
            apply ExtInv_push ?hperm1 inv ?hwf1
            case hperm1 =>
              rw [stateCriteria_some, stateCriteria_some, List.append_assoc]
              refine List.Perm.append_left _ ?_
              rw [spCriteria_push_sub _ _ _ hsub]
            case hwf1 => rfl
          · refine ih (i + 1) sections _ (idx + 1) ?_
            apply ExtInv_push ?hperm2 inv ?hwf2
            case hperm2 =>
              rw [stateCriteria_some, stateCriteria_some, List.append_assoc]
              refine List.Perm.append_left _ ?_
              refine (spCriteria_push_root _ _).trans ?_
              rfl
            case hwf2 => rfl
        · exact ih (i + 1) sections _ idx inv

/-- C8: for every markdown input (and any behaviour of the imported
classifier collaborators), the ids of all criteria produced by one parse of
`extractSections` are pairwise distinct; each id has the form
`slug(section)[-slug(subsection)]-k` for its criterion's recorded section
and subsection names with ordinal `k ≥ 1`; and parsing identical input again
yields an identical result, so the id assignment is deterministic and stable
across re-parses. -/
theorem extractSections_ids_unique_wellformed_stable
    (lines : List Str) (inferSelectors classifyTypes : Bool)
    (classify : Str → CriterionType) (configOf : Str → CheckConfig) :
    (allIds (extractSections lines inferSelectors classifyTypes classify
        configOf)).Nodup ∧
    (∀ c ∈ allCriteriaOf (extractSections lines inferSelectors classifyTypes
        classify configOf), ∃ k, 1 ≤ k ∧ idWellFormed c k) ∧
    extractSections lines inferSelectors classifyTypes classify configOf =
      extractSections lines inferSelectors classifyTypes classify configOf := by
  have inv0 : ExtInv [] none 0 := by
    constructor
    · simp [stateCriteria, allCriteriaOf]
    · intro c hc
      simp [stateCriteria, allCriteriaOf] at hc
  obtain ⟨h1, h2⟩ := extractLoop_sound classify configOf inferSelectors
    classifyTypes lines 0 [] none 0 inv0
  exact ⟨h1, h2, rfl⟩

end ExpoAccept
